import Mathlib

/-
Verification of the route-optimization core of the routecrmpro repository.

The engine appears in three call sites, each shallow-embedded below under its
own namespace:

* `OptimizeRoute`   — netlify/functions/optimize-route.js
* `RouteOptimizer`  — netlify/functions/route-optimizer.js
* `RouteUtils`      — the route-optimization utilities module (unnamed part_001)

The nearest-neighbor construction and the 2-opt scan of optimize-route.js and
route-optimizer.js are line-for-line identical (same loop bounds, same delta
formula, same -0.001 acceptance threshold, same segment reversal), differing
only in their wrappers: optimize-route.js appends the depot to close the
route and returns just the route, route-optimizer.js keeps the route open and
returns the route together with the pass count.  The shared loop body is
therefore embedded once, generically over an ordered field of distances, and
each file's wrapper is defined from it.

JavaScript numbers are modelled as an arbitrary `LinearOrderedField` where
the code only does field arithmetic and comparisons on matrix entries, as `ℚ`
for input data (coordinates, tuning parameters), and as `ℝ` where the code
evaluates trigonometric functions (the haversine distance).  `Math.round` is
modelled exactly as floor (x + 1/2).  JavaScript truthiness tests on
coordinates (`s.lat && s.lng`) are modelled as `≠ 0` (NaN does not arise for
rational inputs).  `Math.random()` in the stop clusterer is modelled by an
explicit `seed` argument holding the drawn index.
-/

set_option maxHeartbeats 1000000
set_option linter.unusedVariables false

namespace RouteCRM

/-! ## Shared matrix-based algorithm core

The distance matrix is a function `d : Nat → Nat → α`; the route is a list of
location indices.  `pathDist` is the sum of the distances of consecutive
route entries, exactly the accumulation loop the sources use. -/

section MatrixAlgorithms

variable {α : Type} [LinearOrderedField α]

/-- Sum of matrix distances over consecutive pairs of a route, i.e. the
`for (i = 0; i < route.length - 1; i++) total += matrix[route[i]][route[i+1]]`
loop shared by all call sites. -/
def pathDist (d : Nat → Nat → α) : List Nat → α
  | a :: b :: rest => d a b + pathDist d (b :: rest)
  | _ => 0

/-- One candidate step of the nearest-unvisited scan: skip visited indices;
an unvisited index replaces the best seen so far when strictly closer (ties
keep the earlier index, and the first unvisited index always beats the
initial `Infinity`). -/
def nnScanStep (d : Nat → Nat → α) (current : Nat) (visited : List Nat)
    (acc : Option (Nat × α)) (i : Nat) : Option (Nat × α) :=
  if visited.contains i then acc
  else
    match acc with
    | none => some (i, d current i)
    | some b => if d current i < b.2 then some (i, d current i) else acc

/-- The inner-loop candidate search of `nearestNeighbor`: scan indices
`0 … n-1`. -/
def findNearest (d : Nat → Nat → α) (current : Nat) (visited : List Nat) (n : Nat) :
    Option Nat :=
  ((List.range n).foldl (nnScanStep d current visited) none).map Prod.fst

/-- The `while (visited.size < n)` loop of `nearestNeighbor`, with the
number of remaining iterations made explicit (each iteration of the source
loop adds exactly one index to `visited`, so the loop runs `n - 1` times). -/
def nnGo (d : Nat → Nat → α) (n : Nat) : Nat → List Nat → Nat → List Nat → List Nat
  | 0, _, _, route => route
  | fuel + 1, visited, current, route =>
    match findNearest d current visited n with
    | some i => nnGo d n fuel (i :: visited) i (route ++ [i])
    | none => route

/-- The pairs `(i, j)` visited by the nested 2-opt scan
`for (i = 1; i < len - 2; i++) for (j = i + 1; j < len - 1; j++)`,
in source order. -/
def scanPairs (n : Nat) : List (Nat × Nat) :=
  (List.range n).flatMap fun i =>
    ((List.range n).filter fun j =>
        decide (1 ≤ i ∧ i + 2 < n ∧ i + 1 ≤ j ∧ j + 1 < n)).map fun j => (i, j)

/-- Segment reversal of optimize-route.js:
`[...route.slice(0, i), ...route.slice(i, j + 1).reverse(), ...route.slice(j + 1)]`
(route-optimizer.js performs the same reversal in place). -/
def twoOptSwap (route : List Nat) (i j : Nat) : List Nat :=
  route.take i ++ ((route.drop i).take (j + 1 - i)).reverse ++ route.drop (j + 1)

/-- The 2-opt loop body for one pair `(i, j)`: compare
`newDist = d[r[i-1]][r[j]] + d[r[i]][r[j+1]]` against
`currentDist = d[r[i-1]][r[i]] + d[r[j]][r[j+1]]` and accept the reversal
when `newDist < currentDist - 0.001`. -/
def twoOptStep (d : Nat → Nat → α) (acc : List Nat × Bool) (p : Nat × Nat) :
    List Nat × Bool :=
  let r := acc.1
  let a := r.getD (p.1 - 1) 0
  let b := r.getD p.1 0
  let c := r.getD p.2 0
  let e := r.getD (p.2 + 1) 0
  if d a c + d b e < d a b + d c e - 1 / 1000 then (twoOptSwap r p.1 p.2, true)
  else acc

/-- One full 2-opt pass: fold the swap-acceptance body over the scanned
pairs, threading the current route and the `improved` flag.  The route
length is invariant under accepted swaps, so scanning the pairs of the
initial length is the source's loop exactly. -/
def twoOptPass (d : Nat → Nat → α) (route : List Nat) : List Nat × Bool :=
  (scanPairs route.length).foldl (twoOptStep d) (route, false)

/-- The `while (improved && iterations < maxIterations)` driver; returns the
final route and the number of passes performed. -/
def twoOptLoop (d : Nat → Nat → α) : Nat → List Nat → Nat → List Nat × Nat
  | 0, route, iterations => (route, iterations)
  | fuel + 1, route, iterations =>
    match twoOptPass d route with
    | (route', true) => twoOptLoop d fuel route' (iterations + 1)
    | (route', false) => (route', iterations + 1)

end MatrixAlgorithms

/-! ## JavaScript rounding -/

/-- JavaScript `Math.round`: floor (x + 1/2). -/
def roundJS {α : Type} [LinearOrderedField α] [FloorRing α] (x : α) : α :=
  (Int.floor (x + 1 / 2) : Int)

/-- JavaScript `Math.round(x * 100) / 100` — two-decimal rounding at the reporting
boundary. -/
def round2 {α : Type} [LinearOrderedField α] [FloorRing α] (x : α) : α :=
  roundJS (x * 100) / 100

/-- JavaScript `Math.round(x * 10) / 10` — one-decimal rounding at the reporting
boundary. -/
def round1 {α : Type} [LinearOrderedField α] [FloorRing α] (x : α) : α :=
  roundJS (x * 10) / 10

/-! ## Geodesic distance (real-valued)

`Math.sin`, `Math.cos`, `Math.sqrt`, `Math.atan2` are modelled by their real
counterparts; the two Earth-radius constants of the sources (3958.8 and 3959
miles) are passed as a parameter. -/

/-- Degrees to radians: `deg * (Math.PI / 180)`. -/
noncomputable def toRad (deg : ℝ) : ℝ := deg * (Real.pi / 180)

/-- JavaScript `Math.atan2(y, x)` (the quadrant-correct arctangent). -/
noncomputable def atan2 (y x : ℝ) : ℝ :=
  if 0 < x then Real.arctan (y / x)
  else if x < 0 ∧ 0 ≤ y then Real.arctan (y / x) + Real.pi
  else if x < 0 ∧ y < 0 then Real.arctan (y / x) - Real.pi
  else if x = 0 ∧ 0 < y then Real.pi / 2
  else if x = 0 ∧ y < 0 then -(Real.pi / 2)
  else 0

/-- The haversine great-circle distance shared by every call site, with the
Earth radius `R` as the one point of variation. -/
noncomputable def haversineBase (R lat1 lng1 lat2 lng2 : ℝ) : ℝ :=
  let dLat := toRad (lat2 - lat1)
  let dLng := toRad (lng2 - lng1)
  let a := Real.sin (dLat / 2) * Real.sin (dLat / 2) +
    Real.cos (toRad lat1) * Real.cos (toRad lat2) *
      Real.sin (dLng / 2) * Real.sin (dLng / 2)
  let c := 2 * atan2 (Real.sqrt a) (Real.sqrt (1 - a))
  R * c

/-! ## optimize-route.js (`OptimizeRoute`) -/

namespace OptimizeRoute

/-- Source constant `DEFAULT_FUEL_PRICE = 3.50`. -/
def DEFAULT_FUEL_PRICE : ℚ := 3.5

/-- Source constant `DEFAULT_AVG_SPEED = 35`. -/
def DEFAULT_AVG_SPEED : ℚ := 35

/-- Source constant `DEFAULT_STOP_DURATION = 20`. -/
def DEFAULT_STOP_DURATION : ℚ := 20

/-- Function `haversineDistance` of optimize-route.js (Earth radius 3958.8 miles). -/
noncomputable def haversineDistance (lat1 lon1 lat2 lon2 : ℝ) : ℝ :=
  haversineBase (19794 / 5) lat1 lon1 lat2 lon2

/-- Source `nearestNeighbor(distanceMatrix, 0)` for an `n × n` matrix: the greedy
construction followed by `route.push(startIndex)` closing the route back to
the depot. -/
def nearestNeighbor {α : Type} [LinearOrderedField α] (d : Nat → Nat → α) (n : Nat) :
    List Nat :=
  nnGo d n (n - 1) [0] 0 [0] ++ [0]

/-- Source `twoOpt(route, distanceMatrix, maxIterations)` of optimize-route.js:
first-improvement 2-opt with acceptance threshold `delta < -0.001`. -/
def twoOpt {α : Type} [LinearOrderedField α] (d : Nat → Nat → α) (route : List Nat)
    (maxIterations : Nat) : List Nat :=
  (twoOptLoop d maxIterations route 0).1

/-- The `options` object of `calculateRouteMetrics`; a `none` field is an
omitted (undefined) property, picked up by the destructuring default. -/
structure MetricsOptions where
  fuelPrice : Option ℚ
  truckMpg : Option ℚ
  avgSpeed : Option ℚ
  stopDuration : Option ℚ

/-- The destructuring
`const { fuelPrice = DEFAULT_FUEL_PRICE, truckMpg = 8, avgSpeed = DEFAULT_AVG_SPEED, stopDuration = DEFAULT_STOP_DURATION } = options`. -/
def resolveMetricsOptions (o : MetricsOptions) : ℚ × ℚ × ℚ × ℚ :=
  (o.fuelPrice.getD DEFAULT_FUEL_PRICE, o.truckMpg.getD 8,
    o.avgSpeed.getD DEFAULT_AVG_SPEED, o.stopDuration.getD DEFAULT_STOP_DURATION)

/-- One entry of the `segments` array built by `calculateRouteMetrics`
(the embedded `from`/`to` location objects are identified by their index). -/
structure Segment (α : Type) where
  fromIdx : Nat
  toIdx : Nat
  distance : α
  estimatedTime : α

/-- The metrics object returned by `calculateRouteMetrics` (the derived
display string `totalTimeFormatted` is omitted). -/
structure RouteMetrics (α : Type) where
  totalMiles : α
  fuelGallons : α
  fuelCost : α
  driveTimeMinutes : α
  stopTimeMinutes : α
  totalTimeMinutes : α
  numStops : Nat
  segments : List (Segment α)

/-- Source `calculateRouteMetrics(route, distanceMatrix, locations, options)` with the
tuning parameters already resolved (`fp` fuel price, `mpg`, `sp` speed, `sd`
stop duration).  `totalMiles` is accumulated unrounded over consecutive route
pairs; rounding happens only in the returned object, as in the source. -/
def calculateRouteMetricsCore {α : Type} [LinearOrderedField α] [FloorRing α]
    (d : Nat → Nat → α) (route : List Nat) (fp mpg sp sd : α) : RouteMetrics α :=
  let totalMiles := pathDist d route
  let segments := (route.zip route.tail).map fun p =>
    { fromIdx := p.1, toIdx := p.2, distance := round2 (d p.1 p.2),
      estimatedTime := roundJS (d p.1 p.2 / sp * 60) : Segment α }
  let numStops := route.length - 2
  let fuelGallons := totalMiles / mpg
  let fuelCost := fuelGallons * fp
  let driveTimeMinutes := totalMiles / sp * 60
  let stopTimeMinutes := (numStops : α) * sd
  let totalTimeMinutes := driveTimeMinutes + stopTimeMinutes
  { totalMiles := round2 totalMiles
    fuelGallons := round2 fuelGallons
    fuelCost := round2 fuelCost
    driveTimeMinutes := roundJS driveTimeMinutes
    stopTimeMinutes := roundJS stopTimeMinutes
    totalTimeMinutes := roundJS totalTimeMinutes
    numStops := numStops
    segments := segments }

/-- Source `calculateRouteMetrics` with an options object, resolving the
destructuring defaults first. -/
def calculateRouteMetrics (d : Nat → Nat → ℚ) (route : List Nat) (o : MetricsOptions) :
    RouteMetrics ℚ :=
  let r := resolveMetricsOptions o
  calculateRouteMetricsCore d route r.1 r.2.1 r.2.2.1 r.2.2.2

end OptimizeRoute

/-! ## route-optimizer.js (`RouteOptimizer`) -/

namespace RouteOptimizer

/-- Function `haversineDistance` of route-optimizer.js (Earth radius 3959 miles). -/
noncomputable def haversineDistance (lat1 lon1 lat2 lon2 : ℝ) : ℝ :=
  haversineBase 3959 lat1 lon1 lat2 lon2

/-- Source `nearestNeighbor(distanceMatrix, 0)` of route-optimizer.js: same greedy
construction, but the route stays open (no closing push). -/
def nearestNeighbor {α : Type} [LinearOrderedField α] (d : Nat → Nat → α) (n : Nat) :
    List Nat :=
  nnGo d n (n - 1) [0] 0 [0]

/-- Source `twoOptImprove(route, distanceMatrix, maxIterations)` of
route-optimizer.js: identical scan to optimize-route.js's `twoOpt`, returning
`{ route, iterations }`. -/
def twoOptImprove {α : Type} [LinearOrderedField α] (d : Nat → Nat → α) (route : List Nat)
    (maxIterations : Nat) : List Nat × Nat :=
  twoOptLoop d maxIterations route 0

/-- Source `calculateTotalDistance(route, distanceMatrix, returnToStart)`: sum over
consecutive pairs, plus the closing leg `matrix[route[len-1]][route[0]]` when
`returnToStart && route.length > 1`. -/
def calculateTotalDistance {α : Type} [LinearOrderedField α] (d : Nat → Nat → α)
    (route : List Nat) (returnToStart : Bool) : α :=
  pathDist d route +
    if returnToStart = true ∧ 1 < route.length then d (route.getLastD 0) route.headI else 0

/-- The persisted `companies.settings` JSON; a `none` field is absent from the
stored object. -/
structure StoredSettings where
  fuel_price : Option ℚ
  default_mpg : Option ℚ
  avg_speed : Option ℚ
  driver_hourly_rate : Option ℚ
  stop_time : Option ℚ

/-- The resolved settings returned by `getCompanySettings`. -/
structure Settings where
  fuel_price : ℚ
  default_mpg : ℚ
  avg_speed : ℚ
  driver_hourly_rate : ℚ
  stop_time : ℚ
deriving DecidableEq

/-- JavaScript `stored || default` on a possibly-absent numeric field: an
absent field and a zero field both fall back to the default. -/
def jsOr (v : Option ℚ) (dflt : ℚ) : ℚ :=
  match v with
  | none => dflt
  | some x => if x = 0 then dflt else x

/-- Source `getCompanySettings`: resolve each stored field with its `||` fallback. -/
def getCompanySettings (s : StoredSettings) : Settings :=
  { fuel_price := jsOr s.fuel_price 3.5
    default_mpg := jsOr s.default_mpg 8
    avg_speed := jsOr s.avg_speed 35
    driver_hourly_rate := jsOr s.driver_hourly_rate 25
    stop_time := jsOr s.stop_time 15 }

/-- The response body of `calculateRouteCosts` (the echoed `settings_used`
block is omitted). -/
structure CostBreakdown (α : Type) where
  distance_miles : α
  fuel_gallons : α
  fuel_cost : α
  drive_time_minutes : α
  stop_time_minutes : α
  total_time_minutes : α
  labor_cost : α
  total_cost : α

/-- The computational body of `calculateRouteCosts` once the settings and the
truck mpg are resolved: all intermediates unrounded, rounding only in the
returned object. -/
def calculateRouteCosts {α : Type} [LinearOrderedField α] [FloorRing α]
    (distance_miles : α) (num_stops : Nat) (mpg fuelPrice avgSpeed driverRate stopTime : α) :
    CostBreakdown α :=
  let fuelGallons := distance_miles / mpg
  let fuelCost := fuelGallons * fuelPrice
  let driveTime := distance_miles / avgSpeed * 60
  let totalStopTime := (num_stops : α) * stopTime
  let totalTime := driveTime + totalStopTime
  let laborCost := totalTime / 60 * driverRate
  let totalCost := fuelCost + laborCost
  { distance_miles := distance_miles
    fuel_gallons := round2 fuelGallons
    fuel_cost := round2 fuelCost
    drive_time_minutes := roundJS driveTime
    stop_time_minutes := totalStopTime
    total_time_minutes := roundJS totalTime
    labor_cost := round2 laborCost
    total_cost := round2 totalCost }

end RouteOptimizer

/-! ## Route-optimization utilities module (`RouteUtils`, src/unnamed/part_001) -/

namespace RouteUtils

/-- A stop record: identifier plus GPS coordinates (decimal degrees). -/
structure Stop where
  id : Nat
  lat : ℚ
  lng : ℚ
deriving DecidableEq

instance : Inhabited Stop := ⟨⟨0, 0, 0⟩⟩

/-- The coordinate-validity filter `s => s.lat && s.lng`: JavaScript
truthiness of both coordinates, i.e. both nonzero. -/
def hasCoords (s : Stop) : Bool := decide (s.lat ≠ 0) && decide (s.lng ≠ 0)

/-- Function `haversineDistance` of the utilities module (Earth radius 3959 miles). -/
noncomputable def haversineDistance (lat1 lng1 lat2 lng2 : ℝ) : ℝ :=
  haversineBase 3959 lat1 lng1 lat2 lng2

/-- Haversine distance between two stop records. -/
noncomputable def stopDist (a b : Stop) : ℝ :=
  haversineDistance (a.lat : ℝ) (a.lng : ℝ) (b.lat : ℝ) (b.lng : ℝ)

/-- Sum of distances between consecutive stops (the middle loop of
`calculateRouteDistance`). -/
noncomputable def stopsPathDist : List Stop → ℝ
  | a :: b :: rest => stopDist a b + stopsPathDist (b :: rest)
  | _ => 0

/-- Source `calculateRouteDistance(stops, depot)`: depot to first stop, consecutive
stops, last stop back to depot; `0` for an empty list. -/
noncomputable def calculateRouteDistance (stops : List Stop) (depot : Stop) : ℝ :=
  match stops with
  | [] => 0
  | s :: rest =>
    stopDist depot s + stopsPathDist (s :: rest) +
      stopDist ((s :: rest).getLast (List.cons_ne_nil s rest)) depot

/-- Source `buildDistanceMatrix(points)`: zero diagonal, upper triangle computed,
lower triangle mirrored (cell `(i,j)` holds the distance computed with the
lower index first). -/
noncomputable def buildDistanceMatrix (points : List Stop) : Nat → Nat → ℝ :=
  fun i j =>
    if i = j then 0
    else stopDist (points.getD (min i j) default) (points.getD (max i j) default)

/-- The candidate scan of this module's `nearestNeighbor`: indices `1 … n`
(index 0 is the depot and is skipped). -/
noncomputable def nnFindNearest (m : Nat → Nat → ℝ) (current : Nat) (visited : List Nat)
    (n : Nat) : Option Nat :=
  ((List.range' 1 n).foldl (nnScanStep m current visited) none).map Prod.fst

/-- The `while (route.length < n)` loop of this module's `nearestNeighbor`;
the route collects `nearest - 1` (indices into the stops array). -/
noncomputable def nnLoop (m : Nat → Nat → ℝ) (n : Nat) :
    Nat → List Nat → Nat → List Nat → List Nat
  | 0, _, _, route => route
  | fuel + 1, visited, current, route =>
    match nnFindNearest m current visited n with
    | some i => nnLoop m n fuel (i :: visited) i (route ++ [i - 1])
    | none => route

/-- Source `nearestNeighbor(stops, depot)` of the utilities module: early return for
at most one stop, otherwise greedy construction over the freshly built
distance matrix of `[depot, ...stops]`, mapped back to stop records. -/
noncomputable def nearestNeighbor (stops : List Stop) (depot : Stop) : List Stop :=
  if stops.length ≤ 1 then stops
  else
    let allPoints := depot :: stops
    let m := buildDistanceMatrix allPoints
    (nnLoop m stops.length stops.length [0] 0 []).map fun i => stops.getD i default

/-- The pairs `(i, j)` visited by this module's 2-opt scan
`for (i = 0; i < len - 1; i++) for (j = i + 2; j < len; j++)`. -/
def p1ScanPairs (n : Nat) : List (Nat × Nat) :=
  (List.range n).flatMap fun i =>
    ((List.range n).filter fun j => decide (i + 1 < n ∧ i + 2 ≤ j)).map fun j => (i, j)

/-- The reversal
`[...r.slice(0, i + 1), ...r.slice(i + 1, j + 1).reverse(), ...r.slice(j + 1)]`. -/
def p1Swap (r : List Stop) (i j : Nat) : List Stop :=
  r.take (i + 1) ++ ((r.drop (i + 1)).take (j - i)).reverse ++ r.drop (j + 1)

/-- The loop body of this module's 2-opt for one pair: recompute the whole
route distance of the reversed candidate and accept when it beats the best
distance by more than the 0.01 threshold. -/
noncomputable def p1Step (depot : Stop) (acc : List Stop × ℝ × Bool) (p : Nat × Nat) :
    List Stop × ℝ × Bool :=
  let newRoute := p1Swap acc.1 p.1 p.2
  let newDistance := calculateRouteDistance newRoute depot
  if newDistance < acc.2.1 - 1 / 100 then (newRoute, newDistance, true) else acc

/-- One pass of this module's 2-opt over all scanned pairs. -/
noncomputable def p1Pass (depot : Stop) (n : Nat) (route : List Stop) (best : ℝ) :
    List Stop × ℝ × Bool :=
  (p1ScanPairs n).foldl (p1Step depot) (route, best, false)

/-- The `while (improved && iterations < maxIterations)` driver of this
module's 2-opt, threading the best route and its distance. -/
noncomputable def p1Loop (depot : Stop) (n : Nat) : Nat → List Stop → ℝ → List Stop × ℝ
  | 0, route, best => (route, best)
  | fuel + 1, route, best =>
    match p1Pass depot n route best with
    | (r, b, true) => p1Loop depot n fuel r b
    | (r, b, false) => (r, b)

/-- Source `twoOptImprove(stops, depot, maxIterations)`: early return for at most
two stops, otherwise the pass/loop driver starting from the input order. -/
noncomputable def twoOptImprove (stops : List Stop) (depot : Stop) (maxIterations : Nat) :
    List Stop :=
  if stops.length ≤ 2 then stops
  else (p1Loop depot stops.length maxIterations stops (calculateRouteDistance stops depot)).1

/-- The `options` object of `optimizeRoute`; `none` is an omitted property. -/
structure P1Options where
  fuelPricePerGallon : Option ℚ
  truckMpg : Option ℚ
  avgSpeedMph : Option ℚ
  stopDurationMinutes : Option ℚ
  driverHourlyRate : Option ℚ

/-- The resolved tuning parameters (also echoed in the result). -/
structure P1Params where
  fuelPricePerGallon : ℚ
  truckMpg : ℚ
  avgSpeedMph : ℚ
  stopDurationMinutes : ℚ
  driverHourlyRate : ℚ
deriving DecidableEq

/-- The destructuring defaults of `optimizeRoute`:
`fuelPricePerGallon = 3.50, truckMpg = 8, avgSpeedMph = 35, stopDurationMinutes = 20, driverHourlyRate = 25`. -/
def resolveOptions (o : P1Options) : P1Params :=
  { fuelPricePerGallon := o.fuelPricePerGallon.getD 3.5
    truckMpg := o.truckMpg.getD 8
    avgSpeedMph := o.avgSpeedMph.getD 35
    stopDurationMinutes := o.stopDurationMinutes.getD 20
    driverHourlyRate := o.driverHourlyRate.getD 25 }

/-- One entry of the `segments` array (the `from`/`to` display labels, which
are derived strings, are omitted). -/
structure P1Segment where
  distance : ℝ
  estimatedMinutes : ℝ
  cumulativeDistance : ℝ
  cumulativeMinutes : ℝ

/-- The middle-segment loop, threading cumulative distance and time and
returning their final values for the closing segment. -/
noncomputable def p1MidSegments (speed dur : ℝ) :
    List Stop → ℝ → ℝ → List P1Segment × ℝ × ℝ
  | s1 :: s2 :: rest, cd, ct =>
    let dist := stopDist s1 s2
    let cd2 := cd + dist
    let ct2 := ct + dist / speed * 60 + dur
    let res := p1MidSegments speed dur (s2 :: rest) cd2 ct2
    (⟨dist, roundJS (dist / speed * 60), cd2, roundJS ct2⟩ :: res.1, res.2)
  | _, cd, ct => ([], cd, ct)

/-- The full segment list: depot to first stop, consecutive stops, last stop
back to the depot. -/
noncomputable def p1Segments (optimized : List Stop) (depot : Stop) (speed dur : ℝ) :
    List P1Segment :=
  match optimized with
  | [] => []
  | s0 :: rest =>
    let firstDist := stopDist depot s0
    let first : P1Segment :=
      ⟨firstDist, roundJS (firstDist / speed * 60), firstDist, roundJS (firstDist / speed * 60)⟩
    let mid := p1MidSegments speed dur (s0 :: rest) firstDist (firstDist / speed * 60)
    let lastStop := (s0 :: rest).getLast (List.cons_ne_nil s0 rest)
    let returnDist := stopDist lastStop depot
    first :: mid.1 ++
      [⟨returnDist, roundJS (returnDist / speed * 60), mid.2.1 + returnDist,
        roundJS (mid.2.2 + returnDist / speed * 60 + dur)⟩]

/-- A stop of the optimized order with its assigned position number and
estimated arrival (`segments[index]?.cumulativeMinutes || 0`). -/
structure NumberedStop where
  stop : Stop
  stop_number : Nat
  estimated_arrival_minutes : ℝ

/-- The `optimizedStops.map((stop, index) => ...)` numbering step. -/
noncomputable def p1NumberStops (optimized : List Stop) (segs : List P1Segment) :
    List NumberedStop :=
  (List.range optimized.length).map fun idx =>
    ⟨optimized.getD idx default, idx + 1,
      match segs[idx]? with
      | some sg => sg.cumulativeMinutes
      | none => 0⟩

/-- The `original` block of the result. -/
structure P1Original where
  distance : ℝ
  stops : List Stop

/-- The `optimized` block of the result. -/
structure P1Optimized where
  distance : ℝ
  stops : List NumberedStop
  segments : List P1Segment

/-- The `savings` block of the result. -/
structure P1Savings where
  miles : ℝ
  percent : ℝ
  fuelGallons : ℝ
  fuelCost : ℝ

/-- The `costs` block of the result. -/
structure P1Costs where
  totalMiles : ℝ
  fuelGallons : ℝ
  fuelCost : ℝ
  laborCost : ℝ
  totalCost : ℝ

/-- The `time` block of the result. -/
structure P1Time where
  drivingMinutes : ℝ
  stopMinutes : ℝ
  totalMinutes : ℝ
  totalHours : ℝ

/-- The successful result object of `optimizeRoute`. -/
structure P1Result where
  original : P1Original
  optimized : P1Optimized
  savings : P1Savings
  costs : P1Costs
  time : P1Time
  parameters : P1Params

/-- The cost/time block of `optimizeRoute`: all intermediates unrounded,
rounding only in the returned objects. -/
noncomputable def p1CostTime (optimizedDistance : ℝ) (numStops : Nat) (p : P1Params) :
    P1Costs × P1Time :=
  let fuelGallons := optimizedDistance / (p.truckMpg : ℝ)
  let fuelCost := fuelGallons * (p.fuelPricePerGallon : ℝ)
  let drivingTimeHours := optimizedDistance / (p.avgSpeedMph : ℝ)
  let stopTimeHours := (numStops : ℝ) * (p.stopDurationMinutes : ℝ) / 60
  let totalTimeHours := drivingTimeHours + stopTimeHours
  let laborCost := totalTimeHours * (p.driverHourlyRate : ℝ)
  let totalCost := fuelCost + laborCost
  (⟨round1 optimizedDistance, round1 fuelGallons, round2 fuelCost, round2 laborCost,
      round2 totalCost⟩,
    ⟨roundJS (drivingTimeHours * 60), roundJS (stopTimeHours * 60),
      roundJS (totalTimeHours * 60), round1 totalTimeHours⟩)

/-- Source `optimizeRoute(stops, depot, options)`: the orchestrator.  Input
validation happens before any distance computation; the pipeline is
nearest-neighbor construction followed by 2-opt improvement (cap 100),
then cost/time estimation and savings against the input order. -/
noncomputable def optimizeRoute (stops : List Stop) (depot : Stop) (options : P1Options) :
    Except String P1Result :=
  let p := resolveOptions options
  if stops = [] then Except.error "No stops to optimize"
  else if depot.lat = 0 ∨ depot.lng = 0 then
    Except.error "Distribution center location required"
  else
    let validStops := stops.filter hasCoords
    if validStops = [] then Except.error "No stops have valid GPS coordinates"
    else
      let originalDistance := calculateRouteDistance validStops depot
      let nnRoute := nearestNeighbor validStops depot
      let optimizedStops := twoOptImprove nnRoute depot 100
      let optimizedDistance := calculateRouteDistance optimizedStops depot
      let ct := p1CostTime optimizedDistance validStops.length p
      let milesSaved := originalDistance - optimizedDistance
      let percentSaved :=
        if 0 < originalDistance then milesSaved / originalDistance * 100 else 0
      let fuelSaved := milesSaved / (p.truckMpg : ℝ)
      let costSaved := fuelSaved * (p.fuelPricePerGallon : ℝ)
      let segments :=
        p1Segments optimizedStops depot (p.avgSpeedMph : ℝ) (p.stopDurationMinutes : ℝ)
      Except.ok
        { original := ⟨round1 originalDistance, validStops⟩
          optimized := ⟨round1 optimizedDistance, p1NumberStops optimizedStops segments,
            segments⟩
          savings := ⟨round1 milesSaved, round1 percentSaved, round1 fuelSaved,
            round2 costSaved⟩
          costs := ct.1
          time := ct.2
          parameters := p }

/-- JavaScript `Math.min(...centroids.map(c => haversineDistance(...)))`. -/
noncomputable def minDistToCentroids (centroids : List Stop) (s : Stop) : ℝ :=
  match centroids.map fun c => stopDist s c with
  | [] => 0
  | d0 :: rest => rest.foldl min d0

/-- One step of the farthest-point scan: the first stop always beats the
initial `-1`; later stops win only when strictly farther. -/
noncomputable def farthestStep (centroids : List Stop) (acc : Option (Stop × ℝ))
    (s : Stop) : Option (Stop × ℝ) :=
  let md := minDistToCentroids centroids s
  match acc with
  | none => some (s, md)
  | some b => if b.2 < md then some (s, md) else acc

/-- The farthest-point scan of `clusterStops`: the stop maximizing its
minimum distance to the chosen centroids. -/
noncomputable def farthestStop (valid centroids : List Stop) : Option Stop :=
  (valid.foldl (farthestStep centroids) none).map Prod.fst

/-- The `while (centroids.length < numClusters)` seeding loop, appending one
farthest stop per iteration.  (With an empty valid-stop list the source loop
would never terminate; the model returns the centroids chosen so far.) -/
noncomputable def pickCentroids (valid : List Stop) : Nat → List Stop → List Stop
  | 0, cs => cs
  | fuel + 1, cs =>
    match farthestStop valid cs with
    | some f => pickCentroids valid fuel (cs ++ [f])
    | none => cs

/-- One step of the nearest-centroid scan of the assignment loop. -/
noncomputable def nearestIdxStep (centroids : List Stop) (s : Stop)
    (acc : Nat × Option ℝ) (i : Nat) : Nat × Option ℝ :=
  let dd := stopDist s (centroids.getD i default)
  match acc.2 with
  | none => (i, some dd)
  | some bd => if dd < bd then (i, some dd) else acc

/-- The nearest-centroid scan of the assignment loop (`nearestCluster`
starts at 0; the first centroid always beats the initial `Infinity`). -/
noncomputable def nearestIdx (centroids : List Stop) (s : Stop) : Nat :=
  ((List.range centroids.length).foldl (nearestIdxStep centroids s)
    ((0 : Nat), (none : Option ℝ))).1

/-- One step of the assignment loop: push a stop into the bucket of its
nearest centroid (`clusters[nearestCluster].push(stop)`). -/
noncomputable def assignStep (centroids : List Stop) (clusters : List (List Stop))
    (s : Stop) : List (List Stop) :=
  let idx := nearestIdx centroids s
  clusters.set idx (clusters.getD idx [] ++ [s])

/-- The assignment loop: push every valid stop into the bucket of its
nearest centroid. -/
noncomputable def assignClusters (centroids : List Stop) (valid : List Stop) (k : Nat) :
    List (List Stop) :=
  valid.foldl (assignStep centroids) (List.replicate k [])

/-- Source `clusterStops(stops, numClusters)` with the unseeded
`Math.floor(Math.random() * validStops.length)` draw made explicit as the
`seed` argument (the drawn first-centroid index). -/
noncomputable def clusterStops (stops : List Stop) (numClusters : Nat) (seed : Nat) :
    List (List Stop) :=
  if stops = [] ∨ numClusters = 0 then []
  else if stops.length ≤ numClusters then stops.map fun s => [s]
  else
    let validStops := stops.filter hasCoords
    let c0 := validStops.getD seed default
    let centroids := pickCentroids validStops (numClusters - 1) [c0]
    let clusters := assignClusters centroids validStops numClusters
    clusters.filter fun c => decide (0 < c.length)

end RouteUtils

/-! ## Spec-side cost/time model

Written from the specification's words (section 4.5), for comparison with the
code-side estimators: fuel volume = total distance ÷ efficiency; fuel cost =
fuel volume × fuel price; drive time (minutes) = total distance ÷ speed × 60;
stop time (minutes) = number of stops × per-stop service duration; total time
= drive time + stop time; labor cost = total time (hours) × hourly rate;
total cost = fuel cost + labor cost. -/

/-- The unrounded metrics demanded by the specification. -/
structure SpecCost (α : Type) where
  fuelVolume : α
  fuelCost : α
  driveMinutes : α
  stopMinutes : α
  totalMinutes : α
  laborCost : α
  totalCost : α

/-- The specification's cost/time equations as a function of total distance,
stop count and tuning parameters. -/
def specCostModel {α : Type} [LinearOrderedField α] (dist : α) (numStops : Nat)
    (price mpg speed dur rate : α) : SpecCost α :=
  { fuelVolume := dist / mpg
    fuelCost := dist / mpg * price
    driveMinutes := dist / speed * 60
    stopMinutes := (numStops : α) * dur
    totalMinutes := dist / speed * 60 + (numStops : α) * dur
    laborCost := (dist / speed * 60 + (numStops : α) * dur) / 60 * rate
    totalCost := dist / mpg * price + (dist / speed * 60 + (numStops : α) * dur) / 60 * rate }

/-! ## Geodesic distance lemmas -/

theorem haversineBase_self (R lat lng : ℝ) : haversineBase R lat lng lat lng = 0 := by
  have h0 : toRad 0 = 0 := by simp [toRad]
  have hzero : (0 : ℝ) - 0 = 0 := by ring
  simp only [haversineBase, sub_self, h0, zero_div, Real.sin_zero, mul_zero, zero_mul,
    add_zero, zero_add, Real.sqrt_zero, sub_zero, Real.sqrt_one]
  have : atan2 0 1 = 0 := by
    simp [atan2, Real.arctan_zero]
  rw [this]
  ring

theorem haversineBase_symm (R lat1 lng1 lat2 lng2 : ℝ) :
    haversineBase R lat1 lng1 lat2 lng2 = haversineBase R lat2 lng2 lat1 lng1 := by
  have hsin : ∀ x y : ℝ, Real.sin (toRad (x - y) / 2) = -Real.sin (toRad (y - x) / 2) := by
    intro x y
    have h : toRad (x - y) = -toRad (y - x) := by
      simp only [toRad]; ring
    rw [h, neg_div, Real.sin_neg]
  simp only [haversineBase]
  rw [hsin lat2 lat1, hsin lng2 lng1]
  ring_nf

/-! ## Path-distance decomposition lemmas -/

section PathDistLemmas

variable {α : Type} [LinearOrderedField α] (d : Nat → Nat → α)

@[simp] theorem pathDist_nil : pathDist d [] = 0 := rfl

@[simp] theorem pathDist_single (a : Nat) : pathDist d [a] = 0 := rfl

@[simp] theorem pathDist_cons_cons (a b : Nat) (l : List Nat) :
    pathDist d (a :: b :: l) = d a b + pathDist d (b :: l) := rfl

theorem pathDist_append_cons (xs ys : List Nat) (a : Nat) :
    pathDist d (xs ++ a :: ys) = pathDist d (xs ++ [a]) + pathDist d (a :: ys) := by
  induction xs with
  | nil => simp
  | cons x xs ih =>
    cases xs with
    | nil => simp [pathDist]
    | cons y t =>
      simp only [List.cons_append, pathDist_cons_cons] at ih ⊢
      rw [ih]
      ring

theorem headI_getD (l : List Nat) : l.headI = l.head?.getD 0 := by
  cases l <;> rfl

theorem pathDist_glue (A B : List Nat) (h : A ≠ []) :
    pathDist d (A ++ B) = pathDist d A + pathDist d (A.getLastD 0 :: B) := by
  have h2 : A.getLastD 0 = A.getLast h := by
    simp [List.getLastD_eq_getLast?, List.getLast?_eq_getLast_of_ne_nil h]
  have h1 : A.dropLast ++ [A.getLast h] = A := List.dropLast_append_getLast h
  rw [h2]
  conv_lhs => rw [← h1, List.append_assoc]
  have h3 := pathDist_append_cons d A.dropLast B (A.getLast h)
  simp only [List.singleton_append] at h3 ⊢
  rw [h3, h1]

theorem pathDist_reverse (hsym : ∀ i j, d i j = d j i) :
    ∀ l : List Nat, pathDist d l.reverse = pathDist d l
  | [] => by simp
  | [a] => by simp
  | a :: b :: t => by
    rw [List.reverse_cons]
    rw [pathDist_glue d ((b :: t).reverse) [a] (by simp)]
    rw [pathDist_reverse hsym (b :: t)]
    have hl : ((b :: t).reverse).getLastD 0 = b := by
      simp [List.getLastD_eq_getLast?]
    rw [hl]
    simp [pathDist, hsym b a]
    ring

theorem pathDist_decomp (X M Y : List Nat) (hX : X ≠ []) (hM : M ≠ []) (hY : Y ≠ []) :
    pathDist d (X ++ M ++ Y) =
      pathDist d X + d (X.getLastD 0) M.headI + pathDist d M +
        d (M.getLastD 0) Y.headI + pathDist d Y := by
  obtain ⟨mh, M2, rfl⟩ := List.exists_cons_of_ne_nil hM
  obtain ⟨yh, Y2, rfl⟩ := List.exists_cons_of_ne_nil hY
  rw [List.append_assoc, pathDist_glue d X _ hX]
  have hsplit : (X.getLastD 0 :: mh :: M2) ++ (yh :: Y2) =
      X.getLastD 0 :: ((mh :: M2) ++ (yh :: Y2)) := by simp
  rw [← hsplit, pathDist_glue d (X.getLastD 0 :: mh :: M2) (yh :: Y2) (by simp)]
  have hlast : (X.getLastD 0 :: mh :: M2).getLastD 0 = (mh :: M2).getLastD 0 := by
    simp [List.getLastD_eq_getLast?]
  rw [hlast]
  simp only [pathDist_cons_cons, List.headI_cons]
  ring

end PathDistLemmas

/-! ## 2-opt reversal lemmas -/

section TwoOptLemmas

variable {α : Type} [LinearOrderedField α] (d : Nat → Nat → α)

theorem route_decomp (r : List Nat) (i j : Nat) (hij : i ≤ j + 1) :
    r.take i ++ ((r.drop i).take (j + 1 - i) ++ r.drop (j + 1)) = r := by
  have h2 : (r.drop i).drop (j + 1 - i) = r.drop (j + 1) := by
    rw [List.drop_drop]
    congr 1
    omega
  rw [← h2, List.take_append_drop, List.take_append_drop]

theorem twoOptSwap_length (r : List Nat) (i j : Nat) (hij : i ≤ j) (hj : j < r.length) :
    (twoOptSwap r i j).length = r.length := by
  simp only [twoOptSwap, List.length_append, List.length_reverse, List.length_take,
    List.length_drop]
  omega

theorem twoOptSwap_perm (r : List Nat) (i j : Nat) (hij : i ≤ j) :
    (twoOptSwap r i j).Perm r := by
  conv_rhs => rw [← route_decomp r i j (by omega)]
  unfold twoOptSwap
  rw [List.append_assoc]
  exact ((((r.drop i).take (j + 1 - i)).reverse_perm.append_right _).append_left _)

theorem twoOptSwap_head? (r : List Nat) (i j : Nat) (hi : 1 ≤ i) :
    (twoOptSwap r i j).head? = r.head? := by
  cases r with
  | nil => simp [twoOptSwap]
  | cons a t =>
    obtain ⟨k, rfl⟩ : ∃ k, i = k + 1 := ⟨i - 1, by omega⟩
    simp [twoOptSwap]

theorem twoOptSwap_getLast? (r : List Nat) (i j : Nat) (hj : j + 1 < r.length) :
    (twoOptSwap r i j).getLast? = r.getLast? := by
  have hYne : r.drop (j + 1) ≠ [] := by
    apply List.ne_nil_of_length_pos
    simp only [List.length_drop]
    omega
  have hne2 : ((r.drop i).take (j + 1 - i)).reverse ++ r.drop (j + 1) ≠ [] := by
    simp only [ne_eq, List.append_eq_nil, not_and]
    intro _ h
    exact hYne h
  unfold twoOptSwap
  rw [List.append_assoc, List.getLast?_append_of_ne_nil _ hne2,
    List.getLast?_append_of_ne_nil _ hYne]
  conv_rhs => rw [← List.take_append_drop (j + 1) r]
  rw [List.getLast?_append_of_ne_nil _ hYne]

theorem pathDist_twoOptSwap (hsym : ∀ i j, d i j = d j i) (r : List Nat) (i j : Nat)
    (h1 : 1 ≤ i) (h2 : i + 1 ≤ j) (h3 : j + 1 < r.length) :
    pathDist d (twoOptSwap r i j) +
        (d (r.getD (i - 1) 0) (r.getD i 0) + d (r.getD j 0) (r.getD (j + 1) 0)) =
      pathDist d r +
        (d (r.getD (i - 1) 0) (r.getD j 0) + d (r.getD i 0) (r.getD (j + 1) 0)) := by
  set X := r.take i with hXdef
  set M := (r.drop i).take (j + 1 - i) with hMdef
  set Y := r.drop (j + 1) with hYdef
  have hXlen : X.length = i := by
    simp only [hXdef, List.length_take]
    omega
  have hMlen : M.length = j + 1 - i := by
    simp only [hMdef, List.length_take, List.length_drop]
    omega
  have hYlen : Y.length = r.length - (j + 1) := by
    simp only [hYdef, List.length_drop]
  have hXne : X ≠ [] := by
    apply List.ne_nil_of_length_pos
    omega
  have hMne : M ≠ [] := by
    apply List.ne_nil_of_length_pos
    omega
  have hYne : Y ≠ [] := by
    apply List.ne_nil_of_length_pos
    omega
  have hr : X ++ M ++ Y = r := by
    rw [List.append_assoc]
    exact route_decomp r i j (by omega)
  have hswap : twoOptSwap r i j = X ++ M.reverse ++ Y := rfl
  have hXlast : X.getLastD 0 = r.getD (i - 1) 0 := by
    rw [List.getLastD_eq_getLast?, List.getLast?_eq_getElem?, hXlen, hXdef]
    rw [List.getElem?_take_of_lt (by omega : i - 1 < i)]
    rw [List.getD_eq_getElem?_getD]
  have hMhead : M.headI = r.getD i 0 := by
    rw [headI_getD, List.head?_eq_getElem?, hMdef]
    rw [List.getElem?_take_of_lt (by omega : 0 < j + 1 - i), List.getElem?_drop]
    simp [List.getD_eq_getElem?_getD]
  have hMlast : M.getLastD 0 = r.getD j 0 := by
    rw [List.getLastD_eq_getLast?, List.getLast?_eq_getElem?, hMlen, hMdef]
    rw [show j + 1 - i - 1 = j - i by omega]
    rw [List.getElem?_take_of_lt (by omega : j - i < j + 1 - i), List.getElem?_drop]
    rw [show i + (j - i) = j by omega]
    simp [List.getD_eq_getElem?_getD]
  have hYhead : Y.headI = r.getD (j + 1) 0 := by
    rw [headI_getD, List.head?_eq_getElem?, hYdef, List.getElem?_drop]
    simp [List.getD_eq_getElem?_getD]
  have hMrevhead : M.reverse.headI = M.getLastD 0 := by
    rw [headI_getD, List.head?_reverse, List.getLastD_eq_getLast?]
  have hMrevlast : M.reverse.getLastD 0 = M.headI := by
    rw [List.getLastD_eq_getLast?, List.getLast?_reverse, headI_getD]
  have hrevne : M.reverse ≠ [] := by
    simpa using hMne
  have e1 := pathDist_decomp d X M Y hXne hMne hYne
  have e2 := pathDist_decomp d X M.reverse Y hXne hrevne hYne
  rw [hXlast, hMhead, hMlast, hYhead] at e1
  rw [hXlast, hMrevhead, hMrevlast, hMlast, hMhead, hYhead] at e2
  have e3 : pathDist d (twoOptSwap r i j) =
      pathDist d X + d (r.getD (i - 1) 0) (r.getD j 0) + pathDist d M +
        d (r.getD i 0) (r.getD (j + 1) 0) + pathDist d Y := by
    rw [hswap, e2, pathDist_reverse d hsym M]
  have e4 : pathDist d r =
      pathDist d X + d (r.getD (i - 1) 0) (r.getD i 0) + pathDist d M +
        d (r.getD j 0) (r.getD (j + 1) 0) + pathDist d Y := by
    conv_lhs => rw [← hr]
    exact e1
  rw [e3, e4]
  ring

theorem mem_scanPairs {n i j : Nat} (h : (i, j) ∈ scanPairs n) :
    1 ≤ i ∧ i + 2 < n ∧ i + 1 ≤ j ∧ j + 1 < n := by
  simp only [scanPairs, List.mem_flatMap, List.mem_map, List.mem_filter,
    List.mem_range, decide_eq_true_eq] at h
  obtain ⟨a, _, b, ⟨_, hcond⟩, heq⟩ := h
  obtain ⟨rfl, rfl⟩ := Prod.mk.injEq .. ▸ heq
  exact hcond

theorem twoOptFold_props (hsym : ∀ i j, d i j = d j i) :
    ∀ (ps : List (Nat × Nat)) (r : List Nat) (b : Bool),
      (∀ p ∈ ps, 1 ≤ p.1 ∧ p.1 + 1 ≤ p.2 ∧ p.2 + 1 < r.length) →
      (ps.foldl (twoOptStep d) (r, b)).1.length = r.length ∧
        pathDist d (ps.foldl (twoOptStep d) (r, b)).1 ≤ pathDist d r ∧
        (ps.foldl (twoOptStep d) (r, b)).1.head? = r.head? ∧
        (ps.foldl (twoOptStep d) (r, b)).1.getLast? = r.getLast? ∧
        (ps.foldl (twoOptStep d) (r, b)).1.Perm r
  | [], r, b, _ => by
    simp
  | p :: ps, r, b, hps => by
    have hp := hps p (List.mem_cons_self p ps)
    have hrest : ∀ q ∈ ps, 1 ≤ q.1 ∧ q.1 + 1 ≤ q.2 ∧ q.2 + 1 < r.length :=
      fun q hq => hps q (List.mem_cons_of_mem p hq)
    rw [List.foldl_cons]
    by_cases hacc :
        d (r.getD (p.1 - 1) 0) (r.getD p.2 0) + d (r.getD p.1 0) (r.getD (p.2 + 1) 0) <
          d (r.getD (p.1 - 1) 0) (r.getD p.1 0) + d (r.getD p.2 0) (r.getD (p.2 + 1) 0)
            - 1 / 1000
    case pos =>
      have hstep : twoOptStep d (r, b) p = (twoOptSwap r p.1 p.2, true) := by
        simp only [twoOptStep, if_pos hacc]
      rw [hstep]
      have hlen : (twoOptSwap r p.1 p.2).length = r.length :=
        twoOptSwap_length r p.1 p.2 (by omega) (by omega)
      have hdist : pathDist d (twoOptSwap r p.1 p.2) ≤ pathDist d r := by
        have heq := pathDist_twoOptSwap d hsym r p.1 p.2 hp.1 hp.2.1 hp.2.2
        linarith
      have hrest2 : ∀ q ∈ ps,
          1 ≤ q.1 ∧ q.1 + 1 ≤ q.2 ∧ q.2 + 1 < (twoOptSwap r p.1 p.2).length := by
        rw [hlen]
        exact hrest
      obtain ⟨ih1, ih2, ih3, ih4, ih5⟩ :=
        twoOptFold_props hsym ps (twoOptSwap r p.1 p.2) true hrest2
      refine ⟨ih1.trans hlen, ih2.trans hdist, ?_, ?_, ?_⟩
      · rw [ih3, twoOptSwap_head? r p.1 p.2 hp.1]
      · rw [ih4, twoOptSwap_getLast? r p.1 p.2 hp.2.2]
      · exact ih5.trans (twoOptSwap_perm r p.1 p.2 (by omega))
    case neg =>
      have hstep : twoOptStep d (r, b) p = (r, b) := by
        simp only [twoOptStep, if_neg hacc]
      rw [hstep]
      exact twoOptFold_props hsym ps r b hrest

theorem twoOptPass_props (hsym : ∀ i j, d i j = d j i) (r : List Nat) :
    (twoOptPass d r).1.length = r.length ∧
      pathDist d (twoOptPass d r).1 ≤ pathDist d r ∧
      (twoOptPass d r).1.head? = r.head? ∧
      (twoOptPass d r).1.getLast? = r.getLast? ∧
      (twoOptPass d r).1.Perm r :=
  twoOptFold_props d hsym (scanPairs r.length) r false
    (fun p hp => by
      obtain ⟨a, b, rfl⟩ : ∃ a b, p = (a, b) := ⟨p.1, p.2, rfl⟩
      have := mem_scanPairs hp
      exact ⟨this.1, this.2.2.1, this.2.2.2⟩)

theorem twoOptLoop_props (hsym : ∀ i j, d i j = d j i) :
    ∀ (fuel : Nat) (r : List Nat) (iters : Nat),
      (twoOptLoop d fuel r iters).1.length = r.length ∧
        pathDist d (twoOptLoop d fuel r iters).1 ≤ pathDist d r ∧
        (twoOptLoop d fuel r iters).1.head? = r.head? ∧
        (twoOptLoop d fuel r iters).1.getLast? = r.getLast? ∧
        (twoOptLoop d fuel r iters).1.Perm r
  | 0, r, iters => by simp [twoOptLoop]
  | fuel + 1, r, iters => by
    obtain ⟨h1, h2, h3, h4, h5⟩ := twoOptPass_props d hsym r
    rcases hps : twoOptPass d r with ⟨r2, flag⟩
    rw [hps] at h1 h2 h3 h4 h5
    simp only at h1 h2 h3 h4 h5
    cases flag with
    | true =>
      have hrec := twoOptLoop_props hsym fuel r2 (iters + 1)
      obtain ⟨g1, g2, g3, g4, g5⟩ := hrec
      simp only [twoOptLoop, hps]
      exact ⟨g1.trans h1, g2.trans h2, g3.trans h3, g4.trans h4, g5.trans h5⟩
    | false =>
      simp only [twoOptLoop, hps]
      exact ⟨h1, h2, h3, h4, h5⟩

end TwoOptLemmas

/-! ## Nearest-neighbor construction lemmas -/

section NNLemmas

variable {α : Type} [LinearOrderedField α] (d : Nat → Nat → α) (current : Nat)
  (visited : List Nat)

theorem nnScan_ne_none :
    ∀ (l : List Nat) (q : Nat × α),
      l.foldl (nnScanStep d current visited) (some q) ≠ none
  | [], q => by simp
  | i :: l, q => by
    rw [List.foldl_cons]
    unfold nnScanStep
    by_cases hc : visited.contains i
    · rw [if_pos hc]
      exact nnScan_ne_none l q
    · rw [if_neg hc]
      by_cases hlt : d current i < q.2
      · simp only [hlt, if_true]
        exact nnScan_ne_none l _
      · simp only [hlt, if_false]
        exact nnScan_ne_none l q

theorem nnScan_none :
    ∀ (l : List Nat) (acc : Option (Nat × α)),
      l.foldl (nnScanStep d current visited) acc = none →
      acc = none ∧ ∀ i ∈ l, visited.contains i
  | [], acc => by
    intro h
    simp only [List.foldl_nil] at h
    exact ⟨h, by simp⟩
  | i :: l, acc => by
    intro h
    rw [List.foldl_cons] at h
    by_cases hc : visited.contains i
    · have hstep : nnScanStep d current visited acc i = acc := by
        unfold nnScanStep
        rw [if_pos hc]
      rw [hstep] at h
      obtain ⟨h1, h2⟩ := nnScan_none l acc h
      exact ⟨h1, fun x hx => by
        rcases List.mem_cons.mp hx with rfl | hx2
        · exact hc
        · exact h2 x hx2⟩
    · exfalso
      have : ∃ q : Nat × α, nnScanStep d current visited acc i = some q := by
        unfold nnScanStep
        rw [if_neg hc]
        match acc with
        | none => exact ⟨_, rfl⟩
        | some b =>
          by_cases hlt : d current i < b.2
          · simp only [hlt, if_true]
            exact ⟨_, rfl⟩
          · simp only [hlt, if_false]
            exact ⟨b, rfl⟩
      obtain ⟨q, hq⟩ := this
      rw [hq] at h
      exact nnScan_ne_none d current visited l q h

theorem nnScan_some :
    ∀ (l : List Nat) (acc : Option (Nat × α)) (p : Nat × α),
      l.foldl (nnScanStep d current visited) acc = some p →
      acc = some p ∨ (p.1 ∈ l ∧ ¬visited.contains p.1)
  | [], acc, p => by
    intro h
    simp only [List.foldl_nil] at h
    exact Or.inl h
  | i :: l, acc, p => by
    intro h
    rw [List.foldl_cons] at h
    have hrec := nnScan_some l (nnScanStep d current visited acc i) p h
    rcases hrec with hstep | ⟨hmem, hnv⟩
    · unfold nnScanStep at hstep
      by_cases hc : visited.contains i
      · rw [if_pos hc] at hstep
        exact Or.inl hstep
      · rw [if_neg hc] at hstep
        match acc with
        | none =>
          simp only at hstep
          have : p.1 = i := by
            rw [← Option.some_inj.mp hstep]
          exact Or.inr ⟨by rw [this]; exact List.mem_cons_self i l, by rw [this]; exact hc⟩
        | some b =>
          by_cases hlt : d current i < b.2
          · simp only [hlt, if_true] at hstep
            have : p.1 = i := by
              rw [← Option.some_inj.mp hstep]
            exact Or.inr ⟨by rw [this]; exact List.mem_cons_self i l, by rw [this]; exact hc⟩
          · simp only [hlt, if_false] at hstep
            exact Or.inl hstep
    · exact Or.inr ⟨List.mem_cons_of_mem i hmem, hnv⟩

theorem findNearest_some {d : Nat → Nat → α} {current : Nat} {visited : List Nat}
    {n j : Nat} (h : findNearest d current visited n = some j) :
    j < n ∧ ¬j ∈ visited := by
  unfold findNearest at h
  rcases Option.map_eq_some'.mp h with ⟨p, hp, rfl⟩
  rcases nnScan_some d current visited (List.range n) none p hp with h1 | ⟨h2, h3⟩
  · exact absurd h1 (by simp)
  · refine ⟨List.mem_range.mp h2, fun hmem => h3 ?_⟩
    simp only [List.contains, List.elem_eq_mem, decide_eq_true_eq]
    exact hmem

theorem findNearest_none {d : Nat → Nat → α} {current : Nat} {visited : List Nat}
    {n : Nat} (h : findNearest d current visited n = none) :
    ∀ i < n, i ∈ visited := by
  unfold findNearest at h
  have h2 : (List.range n).foldl (nnScanStep d current visited) none = none :=
    Option.map_eq_none'.mp h
  obtain ⟨_, hall⟩ := nnScan_none d current visited (List.range n) none h2
  intro i hi
  have := hall i (List.mem_range.mpr hi)
  simpa [List.contains, List.elem_eq_mem] using this

theorem nnGo_perm (d : Nat → Nat → α) (n : Nat) :
    ∀ (fuel : Nat) (visited route : List Nat) (current : Nat),
      route.Nodup → (∀ x, x ∈ visited ↔ x ∈ route) → (∀ x ∈ route, x < n) →
      route.length + fuel = n →
      (nnGo d n fuel visited current route).Perm (List.range n)
  | 0, visited, route, current => by
    intro hnd hvis hlt hlen
    simp only [nnGo]
    have hsub : route ⊆ List.range n := fun x hx => List.mem_range.mpr (hlt x hx)
    have hsp : route.Subperm (List.range n) := List.subperm_of_subset hnd hsub
    exact hsp.perm_of_length_le (by simp; omega)
  | fuel + 1, visited, route, current => by
    intro hnd hvis hlt hlen
    cases hfn : findNearest d current visited n with
    | none =>
      exfalso
      have hall := findNearest_none hfn
      have hsub : List.range n ⊆ route := fun x hx =>
        (hvis x).mp (hall x (List.mem_range.mp hx))
      have hsp : (List.range n).Subperm route :=
        List.subperm_of_subset (List.nodup_range n) hsub
      have := hsp.length_le
      simp only [List.length_range] at this
      omega
    | some i =>
      obtain ⟨hin, hnv⟩ := findNearest_some hfn
      have hni : ¬i ∈ route := fun hmem => hnv ((hvis i).mpr hmem)
      simp only [nnGo, hfn]
      apply nnGo_perm d n fuel (i :: visited) (route ++ [i]) i
      · simp [List.nodup_append, hnd, hni]
      · intro x
        simp only [List.mem_cons, List.mem_append, List.mem_singleton, hvis]
        tauto
      · intro x hx
        rcases List.mem_append.mp hx with hx1 | hx2
        · exact hlt x hx1
        · rw [List.mem_singleton.mp hx2]
          exact hin
      · simp only [List.length_append, List.length_singleton]
        omega

end NNLemmas

/-! ## Monotonicity of the utilities module's 2-opt -/

namespace RouteUtils

theorem p1Fold_mono (depot : Stop) :
    ∀ (ps : List (Nat × Nat)) (r : List Stop) (best : ℝ) (b : Bool),
      best = calculateRouteDistance r depot →
      (ps.foldl (p1Step depot) (r, best, b)).2.1 =
          calculateRouteDistance (ps.foldl (p1Step depot) (r, best, b)).1 depot ∧
        (ps.foldl (p1Step depot) (r, best, b)).2.1 ≤ best
  | [], r, best, b => by
    intro hinv
    simp only [List.foldl_nil]
    exact ⟨hinv, le_refl _⟩
  | p :: ps, r, best, b => by
    intro hinv
    rw [List.foldl_cons]
    by_cases hacc : calculateRouteDistance (p1Swap r p.1 p.2) depot < best - 1 / 100
    · have hstep : p1Step depot (r, best, b) p =
          (p1Swap r p.1 p.2, calculateRouteDistance (p1Swap r p.1 p.2) depot, true) := by
        simp only [p1Step, if_pos hacc]
      rw [hstep]
      obtain ⟨ih1, ih2⟩ := p1Fold_mono depot ps (p1Swap r p.1 p.2)
        (calculateRouteDistance (p1Swap r p.1 p.2) depot) true rfl
      exact ⟨ih1, by linarith⟩
    · have hstep : p1Step depot (r, best, b) p = (r, best, b) := by
        simp only [p1Step, if_neg hacc]
      rw [hstep]
      exact p1Fold_mono depot ps r best b hinv

theorem p1Loop_le (depot : Stop) (n : Nat) :
    ∀ (fuel : Nat) (r : List Stop) (best : ℝ),
      best = calculateRouteDistance r depot →
      calculateRouteDistance (p1Loop depot n fuel r best).1 depot ≤ best
  | 0, r, best => by
    intro hinv
    simp only [p1Loop]
    exact le_of_eq hinv.symm
  | fuel + 1, r, best => by
    intro hinv
    obtain ⟨h1, h2⟩ := p1Fold_mono depot (p1ScanPairs n) r best false hinv
    rcases hps : (p1ScanPairs n).foldl (p1Step depot) (r, best, false) with ⟨r2, b2, flag⟩
    rw [hps] at h1 h2
    simp only at h1 h2
    cases flag with
    | true =>
      simp only [p1Loop, p1Pass, hps]
      have hrec := p1Loop_le depot n fuel r2 b2 h1
      linarith
    | false =>
      simp only [p1Loop, p1Pass, hps]
      rw [← h1]
      exact h2

theorem twoOptImprove_le (stops : List Stop) (depot : Stop) (cap : Nat) :
    calculateRouteDistance (twoOptImprove stops depot cap) depot ≤
      calculateRouteDistance stops depot := by
  unfold twoOptImprove
  by_cases h : stops.length ≤ 2
  · rw [if_pos h]
  · rw [if_neg h]
    exact p1Loop_le depot stops.length cap stops (calculateRouteDistance stops depot) rfl

end RouteUtils

/-! ## Claim C1 -/

/-- C1: for every input route and (symmetric) distance matrix, the total
route distance of the 2-opt improver's output — measured with the closing leg
back to the depot included, as `calculateTotalDistance(..., true)` does for
total-cost reporting — is at most the total distance of the route it started
from (in particular of the nearest-neighbor route); this holds for
route-optimizer.js's `twoOptImprove`, for optimize-route.js's `twoOpt` on a
closed route (where the consecutive-pair sum already contains the closing
leg), and for the utilities module's distance-recomputing `twoOptImprove`.
The improver never increases cost. -/
theorem C1_twoOpt_never_increases {α : Type} [LinearOrderedField α]
    (d : Nat → Nat → α) (hsym : ∀ i j, d i j = d j i) (r : List Nat) (cap : Nat)
    (stops : List RouteUtils.Stop) (depot : RouteUtils.Stop) (capP1 : Nat) :
    RouteOptimizer.calculateTotalDistance d (RouteOptimizer.twoOptImprove d r cap).1 true ≤
        RouteOptimizer.calculateTotalDistance d r true ∧
      pathDist d (OptimizeRoute.twoOpt d r cap) ≤ pathDist d r ∧
      RouteUtils.calculateRouteDistance (RouteUtils.twoOptImprove stops depot capP1) depot ≤
        RouteUtils.calculateRouteDistance stops depot := by
  obtain ⟨h1, h2, h3, h4, _⟩ := twoOptLoop_props d hsym cap r 0
  refine ⟨?_, ?_, RouteUtils.twoOptImprove_le stops depot capP1⟩
  · have hval : d ((twoOptLoop d cap r 0).1.getLastD 0) (twoOptLoop d cap r 0).1.headI =
        d (r.getLastD 0) r.headI := by
      rw [List.getLastD_eq_getLast?, h4, ← List.getLastD_eq_getLast?, headI_getD, h3,
        ← headI_getD]
    simp only [RouteOptimizer.calculateTotalDistance, RouteOptimizer.twoOptImprove]
    rw [h1, hval]
    exact add_le_add_right h2 _
  · simpa only [OptimizeRoute.twoOpt] using h2

/-- C1 witness: a concrete symmetric matrix and route, with the hypotheses
discharged by evaluation. -/
theorem C1_witness :
    (∀ i j : Nat, (fun _ _ => (1 : ℚ)) i j = (fun _ _ => (1 : ℚ)) j i) ∧
      RouteOptimizer.calculateTotalDistance (fun _ _ => (1 : ℚ))
          (RouteOptimizer.twoOptImprove (fun _ _ => (1 : ℚ)) [0, 1, 2] 5).1 true ≤
        RouteOptimizer.calculateTotalDistance (fun _ _ => (1 : ℚ)) [0, 1, 2] true :=
  ⟨fun _ _ => rfl,
    (C1_twoOpt_never_increases (fun _ _ => (1 : ℚ)) (fun _ _ => rfl) [0, 1, 2] 5
      [] ⟨0, 1, 1⟩ 100).1⟩

/-! ## Claim C4 -/

/-- C4: for every pair of in-range coordinates the geo distance function of
each call site satisfies distance(A,B) = distance(B,A) exactly, and
distance(A,A) = 0. -/
theorem C4_haversine_symm_zero (lat1 lng1 lat2 lng2 : ℝ)
    (h1 : |lat1| ≤ 90) (h2 : |lng1| ≤ 180) (h3 : |lat2| ≤ 90) (h4 : |lng2| ≤ 180) :
    OptimizeRoute.haversineDistance lat1 lng1 lat2 lng2 =
        OptimizeRoute.haversineDistance lat2 lng2 lat1 lng1 ∧
      RouteOptimizer.haversineDistance lat1 lng1 lat2 lng2 =
        RouteOptimizer.haversineDistance lat2 lng2 lat1 lng1 ∧
      RouteUtils.haversineDistance lat1 lng1 lat2 lng2 =
        RouteUtils.haversineDistance lat2 lng2 lat1 lng1 ∧
      OptimizeRoute.haversineDistance lat1 lng1 lat1 lng1 = 0 ∧
      RouteOptimizer.haversineDistance lat1 lng1 lat1 lng1 = 0 ∧
      RouteUtils.haversineDistance lat1 lng1 lat1 lng1 = 0 :=
  ⟨haversineBase_symm _ lat1 lng1 lat2 lng2, haversineBase_symm _ lat1 lng1 lat2 lng2,
    haversineBase_symm _ lat1 lng1 lat2 lng2, haversineBase_self _ lat1 lng1,
    haversineBase_self _ lat1 lng1, haversineBase_self _ lat1 lng1⟩

/-- C4 witness: the Atlanta-area coordinates of the spec's test scenario. -/
theorem C4_witness :
    |(33.749 : ℝ)| ≤ 90 ∧
      OptimizeRoute.haversineDistance 33.749 (-84.388) 33.9526 (-84.5499) =
        OptimizeRoute.haversineDistance 33.9526 (-84.5499) 33.749 (-84.388) ∧
      OptimizeRoute.haversineDistance 33.749 (-84.388) 33.749 (-84.388) = 0 :=
  ⟨by norm_num [abs_le],
    (C4_haversine_symm_zero 33.749 (-84.388) 33.9526 (-84.5499) (by norm_num [abs_le])
      (by norm_num [abs_le]) (by norm_num [abs_le]) (by norm_num [abs_le])).1,
    (C4_haversine_symm_zero 33.749 (-84.388) 33.9526 (-84.5499) (by norm_num [abs_le])
      (by norm_num [abs_le]) (by norm_num [abs_le]) (by norm_num [abs_le])).2.2.2.1⟩

/-! ## Stop-set preservation for the utilities module's pipeline -/

theorem p1Swap_perm (r : List RouteUtils.Stop) (i j : Nat) (hij : i ≤ j) :
    (RouteUtils.p1Swap r i j).Perm r := by
  have h2 : (r.drop (i + 1)).drop (j - i) = r.drop (j + 1) := by
    rw [List.drop_drop]
    congr 1
    omega
  have hr : r.take (i + 1) ++ ((r.drop (i + 1)).take (j - i) ++ r.drop (j + 1)) = r := by
    rw [← h2, List.take_append_drop, List.take_append_drop]
  conv_rhs => rw [← hr]
  unfold RouteUtils.p1Swap
  rw [List.append_assoc]
  exact (((r.drop (i + 1)).take (j - i)).reverse_perm.append_right _).append_left _

theorem mem_p1ScanPairs {n i j : Nat} (h : (i, j) ∈ RouteUtils.p1ScanPairs n) :
    i + 1 < n ∧ i + 2 ≤ j ∧ j < n := by
  simp only [RouteUtils.p1ScanPairs, List.mem_flatMap, List.mem_map, List.mem_filter,
    List.mem_range, decide_eq_true_eq] at h
  obtain ⟨a, _, b, ⟨hbr, hcond⟩, heq⟩ := h
  obtain ⟨rfl, rfl⟩ := Prod.mk.injEq .. ▸ heq
  exact ⟨hcond.1, hcond.2, hbr⟩

theorem p1Fold_perm (depot : RouteUtils.Stop) :
    ∀ (ps : List (Nat × Nat)) (r : List RouteUtils.Stop) (best : ℝ) (b : Bool),
      (∀ p ∈ ps, p.1 ≤ p.2) →
      ((ps.foldl (RouteUtils.p1Step depot) (r, best, b)).1).Perm r
  | [], r, best, b => fun _ => by simp
  | p :: ps, r, best, b => fun hps => by
    rw [List.foldl_cons]
    by_cases hacc : RouteUtils.calculateRouteDistance (RouteUtils.p1Swap r p.1 p.2) depot <
        best - 1 / 100
    · have hstep : RouteUtils.p1Step depot (r, best, b) p =
          (RouteUtils.p1Swap r p.1 p.2,
            RouteUtils.calculateRouteDistance (RouteUtils.p1Swap r p.1 p.2) depot, true) := by
        simp only [RouteUtils.p1Step, if_pos hacc]
      rw [hstep]
      exact (p1Fold_perm depot ps (RouteUtils.p1Swap r p.1 p.2) _ true
          (fun q hq => hps q (List.mem_cons_of_mem p hq))).trans
        (p1Swap_perm r p.1 p.2 (hps p (List.mem_cons_self p ps)))
    · have hstep : RouteUtils.p1Step depot (r, best, b) p = (r, best, b) := by
        simp only [RouteUtils.p1Step, if_neg hacc]
      rw [hstep]
      exact p1Fold_perm depot ps r best b (fun q hq => hps q (List.mem_cons_of_mem p hq))

theorem p1Loop_perm (depot : RouteUtils.Stop) (n : Nat) :
    ∀ (fuel : Nat) (r : List RouteUtils.Stop) (best : ℝ),
      ((RouteUtils.p1Loop depot n fuel r best).1).Perm r
  | 0, r, best => by simp [RouteUtils.p1Loop]
  | fuel + 1, r, best => by
    have hps : ∀ p ∈ RouteUtils.p1ScanPairs n, p.1 ≤ p.2 := by
      intro p hp
      obtain ⟨a, b, rfl⟩ : ∃ a b, p = (a, b) := ⟨p.1, p.2, rfl⟩
      have := mem_p1ScanPairs hp
      omega
    have hfold := p1Fold_perm depot (RouteUtils.p1ScanPairs n) r best false hps
    rcases hps2 : (RouteUtils.p1ScanPairs n).foldl (RouteUtils.p1Step depot)
        (r, best, false) with ⟨r2, b2, flag⟩
    rw [hps2] at hfold
    simp only at hfold
    cases flag with
    | true =>
      simp only [RouteUtils.p1Loop, RouteUtils.p1Pass, hps2]
      exact (p1Loop_perm depot n fuel r2 b2).trans hfold
    | false =>
      simp only [RouteUtils.p1Loop, RouteUtils.p1Pass, hps2]
      exact hfold

theorem p1TwoOptImprove_perm (stops : List RouteUtils.Stop) (depot : RouteUtils.Stop)
    (cap : Nat) : (RouteUtils.twoOptImprove stops depot cap).Perm stops := by
  unfold RouteUtils.twoOptImprove
  by_cases h : stops.length ≤ 2
  · rw [if_pos h]
  · rw [if_neg h]
    exact p1Loop_perm depot stops.length cap stops
      (RouteUtils.calculateRouteDistance stops depot)

theorem nnFindNearest_some {m : Nat → Nat → ℝ} {current : Nat} {visited : List Nat}
    {n j : Nat} (h : RouteUtils.nnFindNearest m current visited n = some j) :
    (1 ≤ j ∧ j ≤ n) ∧ ¬j ∈ visited := by
  unfold RouteUtils.nnFindNearest at h
  rcases Option.map_eq_some'.mp h with ⟨p, hp, rfl⟩
  rcases nnScan_some m current visited (List.range' 1 n) none p hp with h1 | ⟨h2, h3⟩
  · exact absurd h1 (by simp)
  · have hmem := List.mem_range'_1.mp h2
    refine ⟨⟨hmem.1, by omega⟩, fun hmemv => h3 ?_⟩
    simp only [List.contains, List.elem_eq_mem, decide_eq_true_eq]
    exact hmemv

theorem nnFindNearest_none {m : Nat → Nat → ℝ} {current : Nat} {visited : List Nat}
    {n : Nat} (h : RouteUtils.nnFindNearest m current visited n = none) :
    ∀ i, 1 ≤ i → i ≤ n → i ∈ visited := by
  unfold RouteUtils.nnFindNearest at h
  have h2 : (List.range' 1 n).foldl (nnScanStep m current visited) none = none :=
    Option.map_eq_none'.mp h
  obtain ⟨_, hall⟩ := nnScan_none m current visited (List.range' 1 n) none h2
  intro i h1 hn
  have := hall i (List.mem_range'_1.mpr ⟨h1, by omega⟩)
  simpa [List.contains, List.elem_eq_mem] using this

theorem nnLoop_perm (m : Nat → Nat → ℝ) (n : Nat) :
    ∀ (fuel : Nat) (visited route : List Nat) (current : Nat),
      route.Nodup → (∀ x, x + 1 ∈ visited ↔ x ∈ route) → (∀ x ∈ route, x < n) →
      route.length + fuel = n →
      (RouteUtils.nnLoop m n fuel visited current route).Perm (List.range n)
  | 0, visited, route, current => by
    intro hnd hvis hlt hlen
    simp only [RouteUtils.nnLoop]
    have hsub : route ⊆ List.range n := fun x hx => List.mem_range.mpr (hlt x hx)
    have hsp : route.Subperm (List.range n) := List.subperm_of_subset hnd hsub
    exact hsp.perm_of_length_le (by simp; omega)
  | fuel + 1, visited, route, current => by
    intro hnd hvis hlt hlen
    cases hfn : RouteUtils.nnFindNearest m current visited n with
    | none =>
      exfalso
      have hall := nnFindNearest_none hfn
      have hsub : List.range n ⊆ route := by
        intro x hx
        have hxn : x < n := List.mem_range.mp hx
        exact (hvis x).mp (hall (x + 1) (by omega) (by omega))
      have hsp : (List.range n).Subperm route :=
        List.subperm_of_subset (List.nodup_range n) hsub
      have := hsp.length_le
      simp only [List.length_range] at this
      omega
    | some i =>
      obtain ⟨⟨hi1, hin⟩, hnv⟩ := nnFindNearest_some hfn
      have hieq : i - 1 + 1 = i := by omega
      have hni : ¬(i - 1) ∈ route := by
        intro hmem
        have := (hvis (i - 1)).mpr hmem
        rw [hieq] at this
        exact hnv this
      simp only [RouteUtils.nnLoop, hfn]
      apply nnLoop_perm m n fuel (i :: visited) (route ++ [i - 1]) i
      · simp [List.nodup_append, hnd, hni]
      · intro x
        have hx : x + 1 = i ↔ x = i - 1 := by omega
        simp only [List.mem_cons, List.mem_append, List.mem_singleton, hvis, hx]
        tauto
      · intro x hx
        rcases List.mem_append.mp hx with hx1 | hx2
        · exact hlt x hx1
        · rw [List.mem_singleton.mp hx2]
          omega
      · simp only [List.length_append, List.length_singleton]
        omega

theorem map_getD_range (l : List RouteUtils.Stop) :
    (List.range l.length).map (fun i => l.getD i default) = l := by
  apply List.ext_getElem
  · simp
  · intro i h1 h2
    simp only [List.getElem_map, List.getElem_range]
    rw [List.getD_eq_getElem?_getD, List.getElem?_eq_getElem h2]
    rfl

theorem nearestNeighbor_stop_perm (stops : List RouteUtils.Stop)
    (depot : RouteUtils.Stop) :
    (RouteUtils.nearestNeighbor stops depot).Perm stops := by
  unfold RouteUtils.nearestNeighbor
  by_cases h : stops.length ≤ 1
  · rw [if_pos h]
  · rw [if_neg h]
    have hperm : (RouteUtils.nnLoop (RouteUtils.buildDistanceMatrix (depot :: stops))
        stops.length stops.length [0] 0 []).Perm (List.range stops.length) := by
      apply nnLoop_perm
      · exact List.nodup_nil
      · intro x
        simp
      · intro x hx
        simp at hx
      · simp
    refine (hperm.map (fun i => stops.getD i default)).trans ?_
    rw [map_getD_range]

/-! ## Claim C5 -/

/-- C5: the multiset of location indices of the route produced by
nearest-neighbor construction followed by 2-opt improvement equals the input
index set — every stop index appears exactly once (the depot index 0
additionally closes the route in optimize-route.js) — and the index multiset
is preserved by every 2-opt segment reversal.  The same holds for the
utilities module's stop-object pipeline: its `nearestNeighbor` returns a
permutation of the input stops, the combined nearest-neighbor-plus-2-opt
output is a permutation of the input stops, and every `p1Swap` reversal
preserves the stop multiset. -/
theorem C5_permutation_invariance {α : Type} [LinearOrderedField α]
    (d : Nat → Nat → α) (hsym : ∀ i j, d i j = d j i) (n cap : Nat) (hn : 1 ≤ n) :
    (OptimizeRoute.twoOpt d (OptimizeRoute.nearestNeighbor d n) cap).Perm
        (List.range n ++ [0]) ∧
      ((RouteOptimizer.twoOptImprove d (RouteOptimizer.nearestNeighbor d n) cap).1).Perm
        (List.range n) ∧
      (∀ (r : List Nat) (i j : Nat), i ≤ j → (twoOptSwap r i j).Perm r) ∧
      (∀ (stops : List RouteUtils.Stop) (depot : RouteUtils.Stop),
        (RouteUtils.nearestNeighbor stops depot).Perm stops) ∧
      (∀ (stops : List RouteUtils.Stop) (depot : RouteUtils.Stop) (capP1 : Nat),
        (RouteUtils.twoOptImprove (RouteUtils.nearestNeighbor stops depot) depot
          capP1).Perm stops) ∧
      (∀ (r : List RouteUtils.Stop) (i j : Nat), i ≤ j →
        (RouteUtils.p1Swap r i j).Perm r) := by
  have hnn : (nnGo d n (n - 1) [0] 0 [0]).Perm (List.range n) := by
    apply nnGo_perm d n (n - 1) [0] [0] 0
    · simp
    · simp
    · intro x hx
      rw [List.mem_singleton.mp hx]
      omega
    · simp only [List.length_singleton]
      omega
  refine ⟨?_, ?_, fun r i j hij => twoOptSwap_perm r i j hij,
    fun stops depot => nearestNeighbor_stop_perm stops depot,
    fun stops depot capP1 =>
      (p1TwoOptImprove_perm (RouteUtils.nearestNeighbor stops depot) depot capP1).trans
        (nearestNeighbor_stop_perm stops depot),
    fun r i j hij => p1Swap_perm r i j hij⟩
  · obtain ⟨_, _, _, _, hperm⟩ :=
      twoOptLoop_props d hsym cap (OptimizeRoute.nearestNeighbor d n) 0
    unfold OptimizeRoute.twoOpt
    refine hperm.trans ?_
    unfold OptimizeRoute.nearestNeighbor
    exact hnn.append_right [0]
  · obtain ⟨_, _, _, _, hperm⟩ :=
      twoOptLoop_props d hsym cap (RouteOptimizer.nearestNeighbor d n) 0
    unfold RouteOptimizer.twoOptImprove
    refine hperm.trans ?_
    unfold RouteOptimizer.nearestNeighbor
    exact hnn

/-- C5 witness: a concrete symmetric matrix at n = 3. -/
theorem C5_witness :
    (1 ≤ 3) ∧
      (OptimizeRoute.twoOpt (fun _ _ => (1 : ℚ))
          (OptimizeRoute.nearestNeighbor (fun _ _ => (1 : ℚ)) 3) 1000).Perm
        (List.range 3 ++ [0]) :=
  ⟨by omega,
    (C5_permutation_invariance (fun _ _ => (1 : ℚ)) (fun _ _ => rfl) 3 1000 (by omega)).1⟩

/-! ## Claim C3 -/

/-- C3 counterexample: with an empty stored settings object (every tuning
parameter omitted), route-optimizer.js's settings resolver substitutes 15 —
not the documented 20 — for the per-stop service duration. -/
theorem C3_counterexample :
    (RouteOptimizer.getCompanySettings ⟨none, none, none, none, none⟩).stop_time = 15 ∧
      ¬(RouteOptimizer.getCompanySettings ⟨none, none, none, none, none⟩).stop_time = 20 := by
  constructor
  · rfl
  · intro h
    have : (15 : ℚ) = 20 := by
      calc (15 : ℚ) = (RouteOptimizer.getCompanySettings ⟨none, none, none, none, none⟩).stop_time := rfl
        _ = 20 := h
    norm_num at this

/-- C3 (amended): when the caller omits a tuning parameter, each call site
substitutes its own default — fuel price 3.50, vehicle efficiency 8, average
speed 35 and driver hourly rate 25 everywhere, per-stop service duration 20
minutes in optimize-route.js and the route-utilities module, but 15 minutes
in route-optimizer.js's settings-based call sites. -/
theorem C3_defaults_amended :
    OptimizeRoute.DEFAULT_FUEL_PRICE = 3.5 ∧
      OptimizeRoute.DEFAULT_AVG_SPEED = 35 ∧
      OptimizeRoute.DEFAULT_STOP_DURATION = 20 ∧
      OptimizeRoute.resolveMetricsOptions ⟨none, none, none, none⟩ = (3.5, 8, 35, 20) ∧
      RouteUtils.resolveOptions ⟨none, none, none, none, none⟩ = ⟨3.5, 8, 35, 20, 25⟩ ∧
      RouteOptimizer.getCompanySettings ⟨none, none, none, none, none⟩ =
        ⟨3.5, 8, 35, 25, 15⟩ :=
  ⟨rfl, rfl, rfl, rfl, rfl, rfl⟩

/-! ## Claim C7 -/

/-- C7: every cost/time estimator satisfies the specification's equations —
fuel volume = distance ÷ efficiency, fuel cost = fuel volume × fuel price,
drive minutes = distance ÷ speed × 60, stop minutes = stop count × service
duration, total time = drive + stop, labor cost = total hours × hourly rate,
total cost = fuel + labor — on unrounded intermediates, with rounding applied
only to the reported fields: route-optimizer.js's `calculateRouteCosts` (all
fields), optimize-route.js's `calculateRouteMetrics` (which reports no labor
or total cost), and the utilities module's cost/time block. -/
theorem C7_cost_model {α : Type} [LinearOrderedField α] [FloorRing α]
    (dist : α) (numStops : Nat) (mpg price speed rate st : α)
    (d : Nat → Nat → α) (route : List Nat) (fp mpg2 sp sd : α)
    (optDist : ℝ) (nP1 : Nat) (p : RouteUtils.P1Params) :
    (let s := specCostModel dist numStops price mpg speed st rate
     let out := RouteOptimizer.calculateRouteCosts dist numStops mpg price speed rate st
     out.distance_miles = dist ∧
       out.fuel_gallons = round2 s.fuelVolume ∧
       out.fuel_cost = round2 s.fuelCost ∧
       out.drive_time_minutes = roundJS s.driveMinutes ∧
       out.stop_time_minutes = s.stopMinutes ∧
       out.total_time_minutes = roundJS s.totalMinutes ∧
       out.labor_cost = round2 s.laborCost ∧
       out.total_cost = round2 s.totalCost) ∧
      (let s := specCostModel (pathDist d route) (route.length - 2) fp mpg2 sp sd 0
       let out := OptimizeRoute.calculateRouteMetricsCore d route fp mpg2 sp sd
       out.totalMiles = round2 (pathDist d route) ∧
         out.fuelGallons = round2 s.fuelVolume ∧
         out.fuelCost = round2 s.fuelCost ∧
         out.driveTimeMinutes = roundJS s.driveMinutes ∧
         out.stopTimeMinutes = roundJS s.stopMinutes ∧
         out.totalTimeMinutes = roundJS s.totalMinutes) ∧
      (let s := specCostModel optDist nP1 (p.fuelPricePerGallon : ℝ) (p.truckMpg : ℝ)
         (p.avgSpeedMph : ℝ) (p.stopDurationMinutes : ℝ) (p.driverHourlyRate : ℝ)
       let out := RouteUtils.p1CostTime optDist nP1 p
       out.1.totalMiles = round1 optDist ∧
         out.1.fuelGallons = round1 s.fuelVolume ∧
         out.1.fuelCost = round2 s.fuelCost ∧
         out.1.laborCost = round2 s.laborCost ∧
         out.1.totalCost = round2 s.totalCost ∧
         out.2.drivingMinutes = roundJS s.driveMinutes ∧
         out.2.stopMinutes = roundJS s.stopMinutes ∧
         out.2.totalMinutes = roundJS s.totalMinutes ∧
         out.2.totalHours = round1 (s.totalMinutes / 60)) := by
  refine ⟨⟨rfl, rfl, rfl, rfl, rfl, rfl, rfl, rfl⟩, ⟨rfl, rfl, rfl, rfl, rfl, rfl⟩,
    ⟨rfl, rfl, rfl, ?_, ?_, rfl, ?_, ?_, ?_⟩⟩
  · show round2 ((optDist / (p.avgSpeedMph : ℝ) +
        (nP1 : ℝ) * (p.stopDurationMinutes : ℝ) / 60) * (p.driverHourlyRate : ℝ)) = _
    unfold specCostModel
    congr 1
    ring
  · show round2 (optDist / (p.truckMpg : ℝ) * (p.fuelPricePerGallon : ℝ) +
        (optDist / (p.avgSpeedMph : ℝ) + (nP1 : ℝ) * (p.stopDurationMinutes : ℝ) / 60) *
          (p.driverHourlyRate : ℝ)) = _
    unfold specCostModel
    congr 1
    ring
  · show roundJS ((nP1 : ℝ) * (p.stopDurationMinutes : ℝ) / 60 * 60) = _
    unfold specCostModel
    congr 1
    ring
  · show roundJS ((optDist / (p.avgSpeedMph : ℝ) +
        (nP1 : ℝ) * (p.stopDurationMinutes : ℝ) / 60) * 60) = _
    unfold specCostModel
    congr 1
    ring
  · show round1 (optDist / (p.avgSpeedMph : ℝ) +
        (nP1 : ℝ) * (p.stopDurationMinutes : ℝ) / 60) = _
    unfold specCostModel
    congr 1
    ring

/-! ## Rounding helper lemmas -/

theorem roundJS_zero {α : Type} [LinearOrderedField α] [FloorRing α] :
    roundJS (0 : α) = 0 := by
  unfold roundJS
  rw [zero_add]
  have : ⌊(1 : α) / 2⌋ = 0 := by
    rw [Int.floor_eq_zero_iff]
    constructor <;> norm_num
  rw [this]
  norm_num

theorem round1_zero {α : Type} [LinearOrderedField α] [FloorRing α] :
    round1 (0 : α) = 0 := by
  unfold round1
  rw [zero_mul, roundJS_zero, zero_div]

theorem round2_zero {α : Type} [LinearOrderedField α] [FloorRing α] :
    round2 (0 : α) = 0 := by
  unfold round2
  rw [zero_mul, roundJS_zero, zero_div]

/-! ## Claim C8 -/

/-- C8: for every input whose stop list is empty after filtering out entries
with missing or invalid coordinates, the orchestrator returns a structured
error — not a successful result — and every validation branch returns before
the pipeline (distance computation, matrix construction) runs. -/
theorem C8_empty_after_filter_errors (stops : List RouteUtils.Stop)
    (depot : RouteUtils.Stop) (o : RouteUtils.P1Options)
    (h : stops.filter RouteUtils.hasCoords = []) :
    ∃ msg, RouteUtils.optimizeRoute stops depot o = Except.error msg := by
  simp only [RouteUtils.optimizeRoute]
  by_cases h1 : stops = []
  · rw [if_pos h1]
    exact ⟨_, rfl⟩
  · rw [if_neg h1]
    by_cases h2 : depot.lat = 0 ∨ depot.lng = 0
    · rw [if_pos h2]
      exact ⟨_, rfl⟩
    · rw [if_neg h2, h, if_pos rfl]
      exact ⟨_, rfl⟩

/-- C8 witness: a single stop with zero coordinates and a valid depot. -/
theorem C8_witness :
    ([⟨1, 0, 0⟩] : List RouteUtils.Stop).filter RouteUtils.hasCoords = [] ∧
      ∃ msg, RouteUtils.optimizeRoute [⟨1, 0, 0⟩] ⟨0, 1, 1⟩ ⟨none, none, none, none, none⟩ =
        Except.error msg :=
  ⟨by decide,
    C8_empty_after_filter_errors [⟨1, 0, 0⟩] ⟨0, 1, 1⟩ ⟨none, none, none, none, none⟩
      (by decide)⟩

/-! ## Claim C10 -/

/-- C10: a stop whose latitude or longitude is exactly 0 (with the other
coordinate in range) fails the truthiness coordinate filter `s.lat && s.lng`
and is dropped, so an input consisting only of such stops yields the
no-valid-coordinates error. -/
theorem C10_zero_coordinate_dropped (stops : List RouteUtils.Stop)
    (depot : RouteUtils.Stop) (o : RouteUtils.P1Options) (hne : stops ≠ [])
    (hdlat : depot.lat ≠ 0) (hdlng : depot.lng ≠ 0)
    (hall : ∀ s ∈ stops, s.lat = 0 ∨ s.lng = 0) :
    (∀ s ∈ stops, RouteUtils.hasCoords s = false) ∧
      RouteUtils.optimizeRoute stops depot o =
        Except.error "No stops have valid GPS coordinates" := by
  have hfalse : ∀ s ∈ stops, RouteUtils.hasCoords s = false := by
    intro s hs
    rcases hall s hs with h | h <;> simp [RouteUtils.hasCoords, h]
  refine ⟨hfalse, ?_⟩
  have hfilter : stops.filter RouteUtils.hasCoords = [] := by
    rw [List.filter_eq_nil_iff]
    intro a ha
    rw [hfalse a ha]
    exact Bool.false_ne_true
  have hdep : ¬(depot.lat = 0 ∨ depot.lng = 0) := by
    push_neg
    exact ⟨hdlat, hdlng⟩
  simp only [RouteUtils.optimizeRoute]
  rw [if_neg hne, if_neg hdep, hfilter, if_pos rfl]

/-- C10 witness: two stops on the equator and the prime meridian with the
other coordinate in range. -/
theorem C10_witness :
    (([⟨1, 0, 50⟩, ⟨2, 40, 0⟩] : List RouteUtils.Stop) ≠ []) ∧
      RouteUtils.optimizeRoute [⟨1, 0, 50⟩, ⟨2, 40, 0⟩] ⟨0, 1, 1⟩
          ⟨none, none, none, none, none⟩ =
        Except.error "No stops have valid GPS coordinates" :=
  ⟨by decide,
    (C10_zero_coordinate_dropped [⟨1, 0, 50⟩, ⟨2, 40, 0⟩] ⟨0, 1, 1⟩
      ⟨none, none, none, none, none⟩ (by decide) (by decide) (by decide)
      (by decide)).2⟩

/-! ## Claim C9 -/

theorem stopDist_zero_of_eq_coords (a b : RouteUtils.Stop) (h1 : a.lat = b.lat)
    (h2 : a.lng = b.lng) : RouteUtils.stopDist a b = 0 := by
  unfold RouteUtils.stopDist RouteUtils.haversineDistance
  rw [h1, h2]
  exact haversineBase_self 3959 (b.lat : ℝ) (b.lng : ℝ)

/-- C9: an input with exactly one valid stop skips the improvement phase
(nearest-neighbor and 2-opt both return the single-stop route unchanged) and
produces a successful single-stop result with zero savings; when the stop's
coordinates equal the depot's, the reported total distance and fuel cost are
zero as well. -/
theorem C9_single_stop (depot s : RouteUtils.Stop) (o : RouteUtils.P1Options)
    (hdlat : depot.lat ≠ 0) (hdlng : depot.lng ≠ 0)
    (hslat : s.lat ≠ 0) (hslng : s.lng ≠ 0) :
    ∃ r : RouteUtils.P1Result,
      RouteUtils.optimizeRoute [s] depot o = Except.ok r ∧
        r.optimized.stops.map RouteUtils.NumberedStop.stop = [s] ∧
        r.savings.miles = 0 ∧ r.savings.percent = 0 ∧
        r.savings.fuelGallons = 0 ∧ r.savings.fuelCost = 0 ∧
        (s.lat = depot.lat → s.lng = depot.lng →
          r.optimized.distance = 0 ∧ r.costs.fuelCost = 0) := by
  have hfilter : ([s] : List RouteUtils.Stop).filter RouteUtils.hasCoords = [s] := by
    simp [RouteUtils.hasCoords, hslat, hslng]
  have hnn : RouteUtils.nearestNeighbor [s] depot = [s] := by
    simp [RouteUtils.nearestNeighbor]
  have h2o : RouteUtils.twoOptImprove [s] depot 100 = [s] := by
    simp [RouteUtils.twoOptImprove]
  have hcond1 : ¬([s] = ([] : List RouteUtils.Stop)) := by simp
  have hcond2 : ¬(depot.lat = 0 ∨ depot.lng = 0) := by
    push_neg
    exact ⟨hdlat, hdlng⟩
  simp only [RouteUtils.optimizeRoute, hfilter, hnn, h2o, if_neg hcond1, if_neg hcond2]
  refine ⟨_, rfl, ?_, ?_, ?_, ?_, ?_, ?_⟩
  · have hr1 : List.range 1 = [0] := rfl
    simp [RouteUtils.p1NumberStops, hr1]
  · show round1 (RouteUtils.calculateRouteDistance [s] depot -
        RouteUtils.calculateRouteDistance [s] depot) = 0
    rw [sub_self, round1_zero]
  · show round1 (if 0 < RouteUtils.calculateRouteDistance [s] depot then
        (RouteUtils.calculateRouteDistance [s] depot -
            RouteUtils.calculateRouteDistance [s] depot) /
          RouteUtils.calculateRouteDistance [s] depot * 100
      else 0) = 0
    rw [sub_self]
    simp [round1_zero]
  · show round1 ((RouteUtils.calculateRouteDistance [s] depot -
        RouteUtils.calculateRouteDistance [s] depot) /
          ((RouteUtils.resolveOptions o).truckMpg : ℝ)) = 0
    rw [sub_self, zero_div, round1_zero]
  · show round2 ((RouteUtils.calculateRouteDistance [s] depot -
        RouteUtils.calculateRouteDistance [s] depot) /
          ((RouteUtils.resolveOptions o).truckMpg : ℝ) *
        ((RouteUtils.resolveOptions o).fuelPricePerGallon : ℝ)) = 0
    rw [sub_self, zero_div, zero_mul, round2_zero]
  · intro h1 h2
    have hD : RouteUtils.calculateRouteDistance [s] depot = 0 := by
      have := stopDist_zero_of_eq_coords depot s h1.symm h2.symm
      have hsd : RouteUtils.stopDist s depot = 0 := stopDist_zero_of_eq_coords s depot h1 h2
      simp [RouteUtils.calculateRouteDistance, RouteUtils.stopsPathDist, this, hsd]
    constructor
    · show round1 (RouteUtils.calculateRouteDistance [s] depot) = 0
      rw [hD, round1_zero]
    · show round2 (RouteUtils.calculateRouteDistance [s] depot /
          ((RouteUtils.resolveOptions o).truckMpg : ℝ) *
          ((RouteUtils.resolveOptions o).fuelPricePerGallon : ℝ)) = 0
      rw [hD, zero_div, zero_mul, round2_zero]

/-- C9 witness: a single stop at exactly the depot's coordinates. -/
theorem C9_witness :
    ((⟨0, 1, 1⟩ : RouteUtils.Stop).lat ≠ 0 ∧ (⟨1, 1, 1⟩ : RouteUtils.Stop).lat ≠ 0) ∧
      ∃ r : RouteUtils.P1Result,
        RouteUtils.optimizeRoute [⟨1, 1, 1⟩] ⟨0, 1, 1⟩ ⟨none, none, none, none, none⟩ =
            Except.ok r ∧
          r.optimized.stops.map RouteUtils.NumberedStop.stop = [⟨1, 1, 1⟩] ∧
          r.savings.miles = 0 ∧ r.savings.percent = 0 ∧
          r.savings.fuelGallons = 0 ∧ r.savings.fuelCost = 0 ∧
          ((⟨1, 1, 1⟩ : RouteUtils.Stop).lat = (⟨0, 1, 1⟩ : RouteUtils.Stop).lat →
            (⟨1, 1, 1⟩ : RouteUtils.Stop).lng = (⟨0, 1, 1⟩ : RouteUtils.Stop).lng →
            r.optimized.distance = 0 ∧ r.costs.fuelCost = 0) :=
  ⟨⟨by decide, by decide⟩,
    C9_single_stop ⟨0, 1, 1⟩ ⟨1, 1, 1⟩ ⟨none, none, none, none, none⟩
      (by decide) (by decide) (by decide) (by decide)⟩

/-! ## Clusterer lemmas -/

namespace RouteUtils

theorem nearestIdxStep_fst (centroids : List Stop) (s : Stop) (acc : Nat × Option ℝ)
    (i : Nat) :
    (nearestIdxStep centroids s acc i).1 = acc.1 ∨
      (nearestIdxStep centroids s acc i).1 = i := by
  rcases acc with ⟨a1, a2⟩
  cases a2 with
  | none => exact Or.inr rfl
  | some bd =>
    unfold nearestIdxStep
    simp only
    by_cases hlt : stopDist s (centroids.getD i default) < bd
    · rw [if_pos hlt]
      exact Or.inr rfl
    · rw [if_neg hlt]
      exact Or.inl rfl

theorem nearestIdx_fold_lt (centroids : List Stop) (s : Stop) (len : Nat) :
    ∀ (l : List Nat) (acc : Nat × Option ℝ), acc.1 < len → (∀ i ∈ l, i < len) →
      (l.foldl (nearestIdxStep centroids s) acc).1 < len
  | [], acc => fun h _ => h
  | i :: l, acc => fun h hl => by
    rw [List.foldl_cons]
    apply nearestIdx_fold_lt centroids s len l
    · rcases nearestIdxStep_fst centroids s acc i with he | he
      · rw [he]
        exact h
      · rw [he]
        exact hl i (List.mem_cons_self i l)
    · exact fun j hj => hl j (List.mem_cons_of_mem i hj)

theorem nearestIdx_lt (centroids : List Stop) (s : Stop) (h : centroids ≠ []) :
    nearestIdx centroids s < centroids.length := by
  unfold nearestIdx
  apply nearestIdx_fold_lt
  · exact List.length_pos.mpr h
  · exact fun i hi => List.mem_range.mp hi

theorem flatten_set_push (cl : List (List Stop)) (idx : Nat) (s : Stop)
    (h : idx < cl.length) :
    ((cl.set idx (cl.getD idx [] ++ [s])).flatten).Perm (cl.flatten ++ [s]) := by
  induction cl generalizing idx with
  | nil => simp at h
  | cons c t ih =>
    cases idx with
    | zero =>
      simp only [List.set_cons_zero, List.getD_cons_zero, List.flatten_cons]
      rw [List.append_assoc, List.append_assoc]
      exact (List.perm_append_comm).append_left c
    | succ n =>
      simp only [List.set_cons_succ, List.getD_cons_succ, List.flatten_cons]
      have hn : n < t.length := by
        simp only [List.length_cons] at h
        omega
      rw [List.append_assoc]
      exact (ih n hn).append_left c

theorem assign_length (centroids : List Stop) :
    ∀ (valid : List Stop) (cl : List (List Stop)),
      (valid.foldl (assignStep centroids) cl).length = cl.length
  | [], cl => rfl
  | s :: rest, cl => by
    rw [List.foldl_cons, assign_length centroids rest]
    simp [assignStep, List.length_set]

theorem assign_flatten_perm (centroids : List Stop) (hc : centroids ≠ []) :
    ∀ (valid : List Stop) (cl : List (List Stop)), centroids.length ≤ cl.length →
      ((valid.foldl (assignStep centroids) cl).flatten).Perm (cl.flatten ++ valid)
  | [], cl => fun h => by simp
  | s :: rest, cl => fun h => by
    rw [List.foldl_cons]
    have hidx : nearestIdx centroids s < cl.length :=
      lt_of_lt_of_le (nearestIdx_lt centroids s hc) h
    have hstep : assignStep centroids cl s =
        cl.set (nearestIdx centroids s) (cl.getD (nearestIdx centroids s) [] ++ [s]) := rfl
    have hlen : (assignStep centroids cl s).length = cl.length := by
      rw [hstep, List.length_set]
    have hrec := assign_flatten_perm centroids hc rest (assignStep centroids cl s)
      (by omega)
    refine hrec.trans ?_
    have hpush : ((assignStep centroids cl s).flatten).Perm (cl.flatten ++ [s]) := by
      rw [hstep]
      exact flatten_set_push cl (nearestIdx centroids s) s hidx
    refine (hpush.append_right rest).trans ?_
    rw [List.append_assoc, List.singleton_append]

theorem pickCentroids_ne_nil (valid : List Stop) :
    ∀ (fuel : Nat) (cs : List Stop), cs ≠ [] → pickCentroids valid fuel cs ≠ []
  | 0, cs => fun h => h
  | fuel + 1, cs => fun h => by
    unfold pickCentroids
    cases hf : farthestStop valid cs with
    | some f => exact pickCentroids_ne_nil valid fuel (cs ++ [f]) (by simp)
    | none => exact h

theorem pickCentroids_le (valid : List Stop) :
    ∀ (fuel : Nat) (cs : List Stop),
      (pickCentroids valid fuel cs).length ≤ cs.length + fuel
  | 0, cs => by
    unfold pickCentroids
    omega
  | fuel + 1, cs => by
    unfold pickCentroids
    cases hf : farthestStop valid cs with
    | some f =>
      dsimp only
      have := pickCentroids_le valid fuel (cs ++ [f])
      simp only [List.length_append, List.length_singleton] at this
      omega
    | none =>
      dsimp only
      omega

theorem flatten_map_singleton (l : List Stop) : (l.map fun s => [s]).flatten = l := by
  induction l with
  | nil => rfl
  | cons a t ih => simp [ih]

theorem flatten_filter_pos (cl : List (List Stop)) :
    ((cl.filter fun c => decide (0 < c.length)).flatten) = cl.flatten := by
  induction cl with
  | nil => rfl
  | cons c t ih =>
    by_cases hc : 0 < c.length
    · simp [List.filter_cons, hc, ih]
    · have hcnil : c = [] := by
        cases c with
        | nil => rfl
        | cons x xs => simp at hc
      subst hcnil
      simp [List.filter_cons, ih]

end RouteUtils

/-! ## Claim C6 -/

/-- C6 counterexample: a stop on the equator (latitude exactly 0, longitude
in range) is dropped by the clusterer's truthiness filter, so the union of
the returned clusters's stops is not the input stop set. -/
theorem C6_counterexample :
    ¬((RouteUtils.clusterStops [⟨1, 0, 10⟩, ⟨2, 10, 10⟩] 1 0).flatten).Perm
        [⟨1, 0, 10⟩, ⟨2, 10, 10⟩] := by
  have heval : RouteUtils.clusterStops [⟨1, 0, 10⟩, ⟨2, 10, 10⟩] 1 0 =
      [[⟨2, 10, 10⟩]] := rfl
  rw [heval]
  decide

/-- C6 (amended): for every stop set all of whose coordinates are truthy
(nonzero latitude and longitude — the clusterer's filter drops zero
coordinates) and every requested cluster count k ≥ 1, the clusterer returns
clusters whose concatenation is a permutation of the input stop set (each
stop in exactly one cluster), every returned cluster is non-empty, at most k
clusters are returned, and when the stop count is at most k the result is
the list of singleton clusters. -/
theorem C6_cluster_partition_amended (stops : List RouteUtils.Stop) (k seed : Nat)
    (hk : 1 ≤ k) (htruthy : ∀ s ∈ stops, s.lat ≠ 0 ∧ s.lng ≠ 0) :
    ((RouteUtils.clusterStops stops k seed).flatten).Perm stops ∧
      (∀ c ∈ RouteUtils.clusterStops stops k seed, c ≠ []) ∧
      (RouteUtils.clusterStops stops k seed).length ≤ k ∧
      (stops.length ≤ k →
        RouteUtils.clusterStops stops k seed = stops.map fun s => [s]) := by
  by_cases h0 : stops = [] ∨ k = 0
  · have hs : stops = [] := by
      rcases h0 with h | h
      · exact h
      · omega
    subst hs
    refine ⟨?_, ?_, ?_, ?_⟩ <;> simp [RouteUtils.clusterStops]
  · by_cases h1 : stops.length ≤ k
    · have heq : RouteUtils.clusterStops stops k seed = stops.map fun s => [s] := by
        simp only [RouteUtils.clusterStops, if_neg h0, if_pos h1]
      rw [heq]
      refine ⟨?_, ?_, ?_, fun _ => rfl⟩
      · rw [RouteUtils.flatten_map_singleton]
      · intro c hc
        obtain ⟨s, _, rfl⟩ := List.mem_map.mp hc
        simp
      · rw [List.length_map]
        exact h1
    · have hvalid : stops.filter RouteUtils.hasCoords = stops := by
        rw [List.filter_eq_self]
        intro s hs
        simp [RouteUtils.hasCoords, (htruthy s hs).1, (htruthy s hs).2]
      have heq : RouteUtils.clusterStops stops k seed =
          (RouteUtils.assignClusters
              (RouteUtils.pickCentroids stops (k - 1) [stops.getD seed default])
              stops k).filter
            (fun c => decide (0 < c.length)) := by
        simp only [RouteUtils.clusterStops, if_neg h0, if_neg h1, hvalid]
      set centroids :=
        RouteUtils.pickCentroids stops (k - 1) [stops.getD seed default] with hcdef
      have hcne : centroids ≠ [] :=
        RouteUtils.pickCentroids_ne_nil stops (k - 1) _ (by simp)
      have hclen : centroids.length ≤ k := by
        have hle := RouteUtils.pickCentroids_le stops (k - 1) [stops.getD seed default]
        rw [← hcdef] at hle
        simp only [List.length_singleton] at hle
        omega
      have hjoin : ((RouteUtils.assignClusters centroids stops k).flatten).Perm stops := by
        unfold RouteUtils.assignClusters
        have := RouteUtils.assign_flatten_perm centroids hcne stops
          (List.replicate k []) (by simp only [List.length_replicate]; exact hclen)
        simpa using this
      have hlenk : (RouteUtils.assignClusters centroids stops k).length = k := by
        unfold RouteUtils.assignClusters
        rw [RouteUtils.assign_length]
        simp
      rw [heq]
      refine ⟨?_, ?_, ?_, fun hcon => absurd hcon h1⟩
      · rw [RouteUtils.flatten_filter_pos]
        exact hjoin
      · intro c hc
        have := (List.mem_filter.mp hc).2
        simp only [decide_eq_true_eq] at this
        exact List.ne_nil_of_length_pos this
      · calc ((RouteUtils.assignClusters centroids stops k).filter
              (fun c => decide (0 < c.length))).length
            ≤ (RouteUtils.assignClusters centroids stops k).length :=
              List.length_filter_le _ _
          _ = k := hlenk

/-- C6 witness: one truthy stop and k = 1 (singleton branch). -/
theorem C6_witness :
    (1 ≤ 1 ∧ ∀ s ∈ ([⟨1, 2, 3⟩] : List RouteUtils.Stop), s.lat ≠ 0 ∧ s.lng ≠ 0) ∧
      ((RouteUtils.clusterStops [⟨1, 2, 3⟩] 1 0).flatten).Perm [⟨1, 2, 3⟩] :=
  ⟨⟨le_refl 1, by decide⟩,
    (C6_cluster_partition_amended [⟨1, 2, 3⟩] 1 0 (le_refl 1) (by decide)).1⟩

/-! ## Claim C2 -/

theorem stopDist_ten_twenty_pos :
    0 < RouteUtils.stopDist ⟨1, 10, 5⟩ ⟨2, 20, 5⟩ := by
  have hs_pos : 0 < Real.sin (Real.pi / 36) :=
    Real.sin_pos_of_pos_of_lt_pi (by positivity)
      (div_lt_self Real.pi_pos (by norm_num))
  have hs_lt : Real.sin (Real.pi / 36) < 1 := by
    have h1 : Real.sin (Real.pi / 36) < Real.pi / 36 := Real.sin_lt (by positivity)
    have h2 : Real.pi ≤ 4 := Real.pi_le_four
    linarith
  have ha_pos : 0 < Real.sin (Real.pi / 36) * Real.sin (Real.pi / 36) :=
    mul_pos hs_pos hs_pos
  have ha_lt : Real.sin (Real.pi / 36) * Real.sin (Real.pi / 36) < 1 := by nlinarith
  unfold RouteUtils.stopDist RouteUtils.haversineDistance
  simp only [haversineBase]
  push_cast
  have hlat : toRad ((20 : ℝ) - 10) / 2 = Real.pi / 36 := by
    unfold toRad
    ring
  have hlng : toRad ((5 : ℝ) - 5) = 0 := by
    unfold toRad
    ring
  rw [hlat, hlng]
  norm_num [Real.sin_zero]
  have hb : 0 < Real.sqrt (1 - Real.sin (Real.pi / 36) * Real.sin (Real.pi / 36)) :=
    Real.sqrt_pos.mpr (by linarith)
  have hatan : 0 < atan2
      (Real.sqrt (Real.sin (Real.pi / 36) * Real.sin (Real.pi / 36)))
      (Real.sqrt (1 - Real.sin (Real.pi / 36) * Real.sin (Real.pi / 36))) := by
    unfold atan2
    rw [if_pos hb]
    have hx : 0 < Real.sqrt (Real.sin (Real.pi / 36) * Real.sin (Real.pi / 36)) /
        Real.sqrt (1 - Real.sin (Real.pi / 36) * Real.sin (Real.pi / 36)) :=
      div_pos (Real.sqrt_pos.mpr ha_pos) hb
    have := Real.arctan_strictMono hx
    rwa [Real.arctan_zero] at this
  nlinarith [hatan]

theorem stopDist_comm_ten_twenty :
    RouteUtils.stopDist ⟨2, 20, 5⟩ ⟨1, 10, 5⟩ = RouteUtils.stopDist ⟨1, 10, 5⟩ ⟨2, 20, 5⟩ := by
  unfold RouteUtils.stopDist RouteUtils.haversineDistance
  exact haversineBase_symm 3959 _ _ _ _

theorem minDist_single (c s : RouteUtils.Stop) :
    RouteUtils.minDistToCentroids [c] s = RouteUtils.stopDist s c := rfl

theorem pick_eval_seed0 :
    RouteUtils.pickCentroids [⟨1, 10, 5⟩, ⟨1, 10, 5⟩, ⟨2, 20, 5⟩] 1 [⟨1, 10, 5⟩] =
      [⟨1, 10, 5⟩, ⟨2, 20, 5⟩] := by
  have hPP : RouteUtils.stopDist ⟨1, 10, 5⟩ ⟨1, 10, 5⟩ = 0 :=
    stopDist_zero_of_eq_coords _ _ rfl rfl
  have hfar : RouteUtils.farthestStop [⟨1, 10, 5⟩, ⟨1, 10, 5⟩, ⟨2, 20, 5⟩] [⟨1, 10, 5⟩] =
      some ⟨2, 20, 5⟩ := by
    have hcond : RouteUtils.minDistToCentroids [⟨1, 10, 5⟩] ⟨1, 10, 5⟩ <
        RouteUtils.minDistToCentroids [⟨1, 10, 5⟩] ⟨2, 20, 5⟩ := by
      rw [minDist_single, minDist_single, hPP, stopDist_comm_ten_twenty]
      exact stopDist_ten_twenty_pos
    unfold RouteUtils.farthestStop
    rw [List.foldl_cons, List.foldl_cons, List.foldl_cons, List.foldl_nil]
    have h1 : RouteUtils.farthestStep [⟨1, 10, 5⟩] none ⟨1, 10, 5⟩ =
        some (⟨1, 10, 5⟩, RouteUtils.minDistToCentroids [⟨1, 10, 5⟩] ⟨1, 10, 5⟩) := rfl
    rw [h1]
    have h2 : RouteUtils.farthestStep [⟨1, 10, 5⟩]
        (some (⟨1, 10, 5⟩, RouteUtils.minDistToCentroids [⟨1, 10, 5⟩] ⟨1, 10, 5⟩))
        ⟨1, 10, 5⟩ =
        some (⟨1, 10, 5⟩, RouteUtils.minDistToCentroids [⟨1, 10, 5⟩] ⟨1, 10, 5⟩) := by
      unfold RouteUtils.farthestStep
      simp only
      rw [if_neg (lt_irrefl _)]
    rw [h2]
    have h3 : RouteUtils.farthestStep [⟨1, 10, 5⟩]
        (some (⟨1, 10, 5⟩, RouteUtils.minDistToCentroids [⟨1, 10, 5⟩] ⟨1, 10, 5⟩))
        ⟨2, 20, 5⟩ =
        some (⟨2, 20, 5⟩, RouteUtils.minDistToCentroids [⟨1, 10, 5⟩] ⟨2, 20, 5⟩) := by
      unfold RouteUtils.farthestStep
      simp only
      rw [if_pos hcond]
    rw [h3]
    rfl
  unfold RouteUtils.pickCentroids
  rw [hfar]
  rfl

theorem pick_eval_seed2 :
    RouteUtils.pickCentroids [⟨1, 10, 5⟩, ⟨1, 10, 5⟩, ⟨2, 20, 5⟩] 1 [⟨2, 20, 5⟩] =
      [⟨2, 20, 5⟩, ⟨1, 10, 5⟩] := by
  have hQQ : RouteUtils.stopDist ⟨2, 20, 5⟩ ⟨2, 20, 5⟩ = 0 :=
    stopDist_zero_of_eq_coords _ _ rfl rfl
  have hfar : RouteUtils.farthestStop [⟨1, 10, 5⟩, ⟨1, 10, 5⟩, ⟨2, 20, 5⟩] [⟨2, 20, 5⟩] =
      some ⟨1, 10, 5⟩ := by
    have hcond : ¬ RouteUtils.minDistToCentroids [⟨2, 20, 5⟩] ⟨1, 10, 5⟩ <
        RouteUtils.minDistToCentroids [⟨2, 20, 5⟩] ⟨2, 20, 5⟩ := by
      rw [minDist_single, minDist_single, hQQ]
      exact not_lt.mpr (le_of_lt stopDist_ten_twenty_pos)
    unfold RouteUtils.farthestStop
    rw [List.foldl_cons, List.foldl_cons, List.foldl_cons, List.foldl_nil]
    have h1 : RouteUtils.farthestStep [⟨2, 20, 5⟩] none ⟨1, 10, 5⟩ =
        some (⟨1, 10, 5⟩, RouteUtils.minDistToCentroids [⟨2, 20, 5⟩] ⟨1, 10, 5⟩) := rfl
    rw [h1]
    have h2 : RouteUtils.farthestStep [⟨2, 20, 5⟩]
        (some (⟨1, 10, 5⟩, RouteUtils.minDistToCentroids [⟨2, 20, 5⟩] ⟨1, 10, 5⟩))
        ⟨1, 10, 5⟩ =
        some (⟨1, 10, 5⟩, RouteUtils.minDistToCentroids [⟨2, 20, 5⟩] ⟨1, 10, 5⟩) := by
      unfold RouteUtils.farthestStep
      simp only
      rw [if_neg (lt_irrefl _)]
    rw [h2]
    have h3 : RouteUtils.farthestStep [⟨2, 20, 5⟩]
        (some (⟨1, 10, 5⟩, RouteUtils.minDistToCentroids [⟨2, 20, 5⟩] ⟨1, 10, 5⟩))
        ⟨2, 20, 5⟩ =
        some (⟨1, 10, 5⟩, RouteUtils.minDistToCentroids [⟨2, 20, 5⟩] ⟨1, 10, 5⟩) := by
      unfold RouteUtils.farthestStep
      simp only
      rw [if_neg hcond]
    rw [h3]
    rfl
  unfold RouteUtils.pickCentroids
  rw [hfar]
  rfl

theorem nearest_eval_PQ_P :
    RouteUtils.nearestIdx [⟨1, 10, 5⟩, ⟨2, 20, 5⟩] ⟨1, 10, 5⟩ = 0 := by
  have hPP : RouteUtils.stopDist ⟨1, 10, 5⟩ ⟨1, 10, 5⟩ = 0 :=
    stopDist_zero_of_eq_coords _ _ rfl rfl
  unfold RouteUtils.nearestIdx
  rw [show List.range ([⟨1, 10, 5⟩, ⟨2, 20, 5⟩] : List RouteUtils.Stop).length = [0, 1]
    from rfl]
  rw [List.foldl_cons, List.foldl_cons, List.foldl_nil]
  have h1 : RouteUtils.nearestIdxStep [⟨1, 10, 5⟩, ⟨2, 20, 5⟩] ⟨1, 10, 5⟩ (0, none) 0 =
      (0, some (RouteUtils.stopDist ⟨1, 10, 5⟩ ⟨1, 10, 5⟩)) := rfl
  rw [h1]
  have h2 : RouteUtils.nearestIdxStep [⟨1, 10, 5⟩, ⟨2, 20, 5⟩] ⟨1, 10, 5⟩
      (0, some (RouteUtils.stopDist ⟨1, 10, 5⟩ ⟨1, 10, 5⟩)) 1 =
      (0, some (RouteUtils.stopDist ⟨1, 10, 5⟩ ⟨1, 10, 5⟩)) := by
    have hcond : ¬ RouteUtils.stopDist ⟨1, 10, 5⟩
        (([⟨1, 10, 5⟩, ⟨2, 20, 5⟩] : List RouteUtils.Stop).getD 1 default) <
        RouteUtils.stopDist ⟨1, 10, 5⟩ ⟨1, 10, 5⟩ := by
      rw [show ([⟨1, 10, 5⟩, ⟨2, 20, 5⟩] : List RouteUtils.Stop).getD 1 default =
        ⟨2, 20, 5⟩ from rfl]
      rw [hPP]
      exact not_lt.mpr (le_of_lt stopDist_ten_twenty_pos)
    unfold RouteUtils.nearestIdxStep
    simp only
    rw [if_neg hcond]
  rw [h2]

theorem nearest_eval_PQ_Q :
    RouteUtils.nearestIdx [⟨1, 10, 5⟩, ⟨2, 20, 5⟩] ⟨2, 20, 5⟩ = 1 := by
  have hQQ : RouteUtils.stopDist ⟨2, 20, 5⟩ ⟨2, 20, 5⟩ = 0 :=
    stopDist_zero_of_eq_coords _ _ rfl rfl
  unfold RouteUtils.nearestIdx
  rw [show List.range ([⟨1, 10, 5⟩, ⟨2, 20, 5⟩] : List RouteUtils.Stop).length = [0, 1]
    from rfl]
  rw [List.foldl_cons, List.foldl_cons, List.foldl_nil]
  have h1 : RouteUtils.nearestIdxStep [⟨1, 10, 5⟩, ⟨2, 20, 5⟩] ⟨2, 20, 5⟩ (0, none) 0 =
      (0, some (RouteUtils.stopDist ⟨2, 20, 5⟩ ⟨1, 10, 5⟩)) := rfl
  rw [h1]
  have h2 : RouteUtils.nearestIdxStep [⟨1, 10, 5⟩, ⟨2, 20, 5⟩] ⟨2, 20, 5⟩
      (0, some (RouteUtils.stopDist ⟨2, 20, 5⟩ ⟨1, 10, 5⟩)) 1 =
      (1, some (RouteUtils.stopDist ⟨2, 20, 5⟩
        (([⟨1, 10, 5⟩, ⟨2, 20, 5⟩] : List RouteUtils.Stop).getD 1 default))) := by
    have hcond : RouteUtils.stopDist ⟨2, 20, 5⟩
        (([⟨1, 10, 5⟩, ⟨2, 20, 5⟩] : List RouteUtils.Stop).getD 1 default) <
        RouteUtils.stopDist ⟨2, 20, 5⟩ ⟨1, 10, 5⟩ := by
      rw [show ([⟨1, 10, 5⟩, ⟨2, 20, 5⟩] : List RouteUtils.Stop).getD 1 default =
        ⟨2, 20, 5⟩ from rfl]
      rw [hQQ, stopDist_comm_ten_twenty]
      exact stopDist_ten_twenty_pos
    unfold RouteUtils.nearestIdxStep
    simp only
    rw [if_pos hcond]
  rw [h2]

theorem nearest_eval_QP_P :
    RouteUtils.nearestIdx [⟨2, 20, 5⟩, ⟨1, 10, 5⟩] ⟨1, 10, 5⟩ = 1 := by
  have hPP : RouteUtils.stopDist ⟨1, 10, 5⟩ ⟨1, 10, 5⟩ = 0 :=
    stopDist_zero_of_eq_coords _ _ rfl rfl
  unfold RouteUtils.nearestIdx
  rw [show List.range ([⟨2, 20, 5⟩, ⟨1, 10, 5⟩] : List RouteUtils.Stop).length = [0, 1]
    from rfl]
  rw [List.foldl_cons, List.foldl_cons, List.foldl_nil]
  have h1 : RouteUtils.nearestIdxStep [⟨2, 20, 5⟩, ⟨1, 10, 5⟩] ⟨1, 10, 5⟩ (0, none) 0 =
      (0, some (RouteUtils.stopDist ⟨1, 10, 5⟩ ⟨2, 20, 5⟩)) := rfl
  rw [h1]
  have h2 : RouteUtils.nearestIdxStep [⟨2, 20, 5⟩, ⟨1, 10, 5⟩] ⟨1, 10, 5⟩
      (0, some (RouteUtils.stopDist ⟨1, 10, 5⟩ ⟨2, 20, 5⟩)) 1 =
      (1, some (RouteUtils.stopDist ⟨1, 10, 5⟩
        (([⟨2, 20, 5⟩, ⟨1, 10, 5⟩] : List RouteUtils.Stop).getD 1 default))) := by
    have hcond : RouteUtils.stopDist ⟨1, 10, 5⟩
        (([⟨2, 20, 5⟩, ⟨1, 10, 5⟩] : List RouteUtils.Stop).getD 1 default) <
        RouteUtils.stopDist ⟨1, 10, 5⟩ ⟨2, 20, 5⟩ := by
      rw [show ([⟨2, 20, 5⟩, ⟨1, 10, 5⟩] : List RouteUtils.Stop).getD 1 default =
        ⟨1, 10, 5⟩ from rfl]
      rw [hPP]
      exact stopDist_ten_twenty_pos
    unfold RouteUtils.nearestIdxStep
    simp only
    rw [if_pos hcond]
  rw [h2]

theorem nearest_eval_QP_Q :
    RouteUtils.nearestIdx [⟨2, 20, 5⟩, ⟨1, 10, 5⟩] ⟨2, 20, 5⟩ = 0 := by
  have hQQ : RouteUtils.stopDist ⟨2, 20, 5⟩ ⟨2, 20, 5⟩ = 0 :=
    stopDist_zero_of_eq_coords _ _ rfl rfl
  unfold RouteUtils.nearestIdx
  rw [show List.range ([⟨2, 20, 5⟩, ⟨1, 10, 5⟩] : List RouteUtils.Stop).length = [0, 1]
    from rfl]
  rw [List.foldl_cons, List.foldl_cons, List.foldl_nil]
  have h1 : RouteUtils.nearestIdxStep [⟨2, 20, 5⟩, ⟨1, 10, 5⟩] ⟨2, 20, 5⟩ (0, none) 0 =
      (0, some (RouteUtils.stopDist ⟨2, 20, 5⟩ ⟨2, 20, 5⟩)) := rfl
  rw [h1]
  have h2 : RouteUtils.nearestIdxStep [⟨2, 20, 5⟩, ⟨1, 10, 5⟩] ⟨2, 20, 5⟩
      (0, some (RouteUtils.stopDist ⟨2, 20, 5⟩ ⟨2, 20, 5⟩)) 1 =
      (0, some (RouteUtils.stopDist ⟨2, 20, 5⟩ ⟨2, 20, 5⟩)) := by
    have hcond : ¬ RouteUtils.stopDist ⟨2, 20, 5⟩
        (([⟨2, 20, 5⟩, ⟨1, 10, 5⟩] : List RouteUtils.Stop).getD 1 default) <
        RouteUtils.stopDist ⟨2, 20, 5⟩ ⟨2, 20, 5⟩ := by
      rw [show ([⟨2, 20, 5⟩, ⟨1, 10, 5⟩] : List RouteUtils.Stop).getD 1 default =
        ⟨1, 10, 5⟩ from rfl]
      rw [hQQ, stopDist_comm_ten_twenty]
      exact not_lt.mpr (le_of_lt stopDist_ten_twenty_pos)
    unfold RouteUtils.nearestIdxStep
    simp only
    rw [if_neg hcond]
  rw [h2]

theorem cluster_eval_seed0 :
    RouteUtils.clusterStops [⟨1, 10, 5⟩, ⟨1, 10, 5⟩, ⟨2, 20, 5⟩] 2 0 =
      [[⟨1, 10, 5⟩, ⟨1, 10, 5⟩], [⟨2, 20, 5⟩]] := by
  have hvalid : ([⟨1, 10, 5⟩, ⟨1, 10, 5⟩, ⟨2, 20, 5⟩] : List RouteUtils.Stop).filter
      RouteUtils.hasCoords = [⟨1, 10, 5⟩, ⟨1, 10, 5⟩, ⟨2, 20, 5⟩] := by decide
  simp only [RouteUtils.clusterStops]
  rw [if_neg (by decide :
    ¬(([⟨1, 10, 5⟩, ⟨1, 10, 5⟩, ⟨2, 20, 5⟩] : List RouteUtils.Stop) = [] ∨ 2 = 0))]
  rw [if_neg (by decide :
    ¬(([⟨1, 10, 5⟩, ⟨1, 10, 5⟩, ⟨2, 20, 5⟩] : List RouteUtils.Stop).length ≤ 2))]
  rw [hvalid]
  rw [show ([⟨1, 10, 5⟩, ⟨1, 10, 5⟩, ⟨2, 20, 5⟩] : List RouteUtils.Stop).getD 0 default =
    ⟨1, 10, 5⟩ from rfl]
  rw [show (2 : Nat) - 1 = 1 from rfl]
  rw [pick_eval_seed0]
  have hassign : RouteUtils.assignClusters [⟨1, 10, 5⟩, ⟨2, 20, 5⟩]
      [⟨1, 10, 5⟩, ⟨1, 10, 5⟩, ⟨2, 20, 5⟩] 2 =
      [[⟨1, 10, 5⟩, ⟨1, 10, 5⟩], [⟨2, 20, 5⟩]] := by
    unfold RouteUtils.assignClusters
    rw [show List.replicate 2 ([] : List RouteUtils.Stop) = [[], []] from rfl]
    rw [List.foldl_cons, List.foldl_cons, List.foldl_cons, List.foldl_nil]
    have ha1 : RouteUtils.assignStep [⟨1, 10, 5⟩, ⟨2, 20, 5⟩] [[], []] ⟨1, 10, 5⟩ =
        [[⟨1, 10, 5⟩], []] := by
      unfold RouteUtils.assignStep
      rw [nearest_eval_PQ_P]
      rfl
    rw [ha1]
    have ha2 : RouteUtils.assignStep [⟨1, 10, 5⟩, ⟨2, 20, 5⟩] [[⟨1, 10, 5⟩], []]
        ⟨1, 10, 5⟩ = [[⟨1, 10, 5⟩, ⟨1, 10, 5⟩], []] := by
      unfold RouteUtils.assignStep
      rw [nearest_eval_PQ_P]
      rfl
    rw [ha2]
    have ha3 : RouteUtils.assignStep [⟨1, 10, 5⟩, ⟨2, 20, 5⟩]
        [[⟨1, 10, 5⟩, ⟨1, 10, 5⟩], []] ⟨2, 20, 5⟩ =
        [[⟨1, 10, 5⟩, ⟨1, 10, 5⟩], [⟨2, 20, 5⟩]] := by
      unfold RouteUtils.assignStep
      rw [nearest_eval_PQ_Q]
      rfl
    rw [ha3]
  rw [hassign]
  decide

theorem cluster_eval_seed2 :
    RouteUtils.clusterStops [⟨1, 10, 5⟩, ⟨1, 10, 5⟩, ⟨2, 20, 5⟩] 2 2 =
      [[⟨2, 20, 5⟩], [⟨1, 10, 5⟩, ⟨1, 10, 5⟩]] := by
  have hvalid : ([⟨1, 10, 5⟩, ⟨1, 10, 5⟩, ⟨2, 20, 5⟩] : List RouteUtils.Stop).filter
      RouteUtils.hasCoords = [⟨1, 10, 5⟩, ⟨1, 10, 5⟩, ⟨2, 20, 5⟩] := by decide
  simp only [RouteUtils.clusterStops]
  rw [if_neg (by decide :
    ¬(([⟨1, 10, 5⟩, ⟨1, 10, 5⟩, ⟨2, 20, 5⟩] : List RouteUtils.Stop) = [] ∨ 2 = 0))]
  rw [if_neg (by decide :
    ¬(([⟨1, 10, 5⟩, ⟨1, 10, 5⟩, ⟨2, 20, 5⟩] : List RouteUtils.Stop).length ≤ 2))]
  rw [hvalid]
  rw [show ([⟨1, 10, 5⟩, ⟨1, 10, 5⟩, ⟨2, 20, 5⟩] : List RouteUtils.Stop).getD 2 default =
    ⟨2, 20, 5⟩ from rfl]
  rw [show (2 : Nat) - 1 = 1 from rfl]
  rw [pick_eval_seed2]
  have hassign : RouteUtils.assignClusters [⟨2, 20, 5⟩, ⟨1, 10, 5⟩]
      [⟨1, 10, 5⟩, ⟨1, 10, 5⟩, ⟨2, 20, 5⟩] 2 =
      [[⟨2, 20, 5⟩], [⟨1, 10, 5⟩, ⟨1, 10, 5⟩]] := by
    unfold RouteUtils.assignClusters
    rw [show List.replicate 2 ([] : List RouteUtils.Stop) = [[], []] from rfl]
    rw [List.foldl_cons, List.foldl_cons, List.foldl_cons, List.foldl_nil]
    have ha1 : RouteUtils.assignStep [⟨2, 20, 5⟩, ⟨1, 10, 5⟩] [[], []] ⟨1, 10, 5⟩ =
        [[], [⟨1, 10, 5⟩]] := by
      unfold RouteUtils.assignStep
      rw [nearest_eval_QP_P]
      rfl
    rw [ha1]
    have ha2 : RouteUtils.assignStep [⟨2, 20, 5⟩, ⟨1, 10, 5⟩] [[], [⟨1, 10, 5⟩]]
        ⟨1, 10, 5⟩ = [[], [⟨1, 10, 5⟩, ⟨1, 10, 5⟩]] := by
      unfold RouteUtils.assignStep
      rw [nearest_eval_QP_P]
      rfl
    rw [ha2]
    have ha3 : RouteUtils.assignStep [⟨2, 20, 5⟩, ⟨1, 10, 5⟩]
        [[], [⟨1, 10, 5⟩, ⟨1, 10, 5⟩]] ⟨2, 20, 5⟩ =
        [[⟨2, 20, 5⟩], [⟨1, 10, 5⟩, ⟨1, 10, 5⟩]] := by
      unfold RouteUtils.assignStep
      rw [nearest_eval_QP_Q]
      rfl
    rw [ha3]
  rw [hassign]
  decide

/-- C2: the stop clusterer's first centroid is drawn with an unseeded
`Math.random()` rather than a deterministic rule: on a fixed input (three
stops, two coincident, k = 2) the two possible random draws (index 0 and
index 2) produce different outputs, so repeated runs of the engine on the
same input need not return identical results — contradicting the
determinism requirement. -/
theorem C2_cluster_seed_dependent :
    RouteUtils.clusterStops [⟨1, 10, 5⟩, ⟨1, 10, 5⟩, ⟨2, 20, 5⟩] 2 0 ≠
      RouteUtils.clusterStops [⟨1, 10, 5⟩, ⟨1, 10, 5⟩, ⟨2, 20, 5⟩] 2 2 := by
  rw [cluster_eval_seed0, cluster_eval_seed2]
  decide

end RouteCRM
